import Mathlib

/-!
Shallow embedding of the SeatScore engine (src/src/seatscore.py) of the
metropy repository, together with proofs settling the frozen claims.

Modelling conventions:
* Python floats are modelled as exact rationals (`ℚ`).  Decimal float
  literals of the source become the corresponding decimal rationals.
* `numpy.exp` and Python's `**` operator are transcendental; they are
  passed in as oracle functions (`Oracles.qexp`, `Oracles.qpow`).  Theorems
  that depend on their behaviour state the needed properties as hypotheses;
  counterexamples instantiate them with rational surrogates that agree with
  the real functions on every input actually used by the run.
* Python dictionaries are modelled as association lists in insertion
  order; `dict.get` is `List.lookup`.  Truthiness of a dict or list is
  non-emptiness, truthiness of a float is being nonzero, truthiness of a
  string is being nonempty.
* `round(x, n)` is modelled as half-up decimal rounding (Python rounds the
  underlying binary float to even; the two agree except on exact decimal
  ties, which no claim exercises).
* An injected weather service is modelled as `ℕ → Except Unit ℚ`: the
  argument is the index of the call within one request, so that the number
  of invocations and raised errors are observable.  Fallible computations
  return `Except Unit`.
-/

namespace Metropy

/-- Half-up rounding of a rational to `n` decimal digits, modelling
Python's `round(x, n)` on the decimal rationals used here. -/
def roundTo (n : ℕ) (q : ℚ) : ℚ :=
  (⌊q * (10 : ℚ) ^ n + 1/2⌋ : ℤ) / (10 : ℚ) ^ n

/-- Rounding to two decimal places, `round(x, 2)`. -/
def round2 (q : ℚ) : ℚ := roundTo 2 q

/-- Python's `%` on integers (sign of the divisor), used for `hour % 24`. -/
def pymod (a b : ℤ) : ℤ := a.fmod b

/-- Python's `%` on floats: `a - b * floor(a / b)`.  Python raises
`ZeroDivisionError` for `b = 0`; the model returns `0` there and the
well-formedness predicate `Engine.WF` excludes that case. -/
def qfmod (a b : ℚ) : ℚ := if b = 0 then 0 else a - b * (⌊a / b⌋ : ℤ)

/-- `np.clip(x, lo, hi)`. -/
def clip (x lo hi : ℚ) : ℚ := min hi (max lo x)

/-- Maximum of a list of rationals with explicit head default,
modelling `np.max` on a nonempty array. -/
def listMax : List ℚ → ℚ
  | [] => 0
  | x :: xs => xs.foldl max x

/-- Minimum of a list of rationals, modelling `np.min`. -/
def listMin : List ℚ → ℚ
  | [] => 0
  | x :: xs => xs.foldl min x

/-- Substring test: `sub in s` of Python. -/
def strIn (sub s : String) : Bool := decide (sub.toList <:+: s.toList)

/-- First position of `name` in the station list: Python's
`list.index` inside `try`, i.e. first exact match. -/
def listIndex (stations : List String) (name : String) : Option ℕ :=
  stations.findIdx? (fun s => s = name)

/-- The inner helper `find_idx` of `_get_intermediate_stations`: exact
match first, then the first station related to `name` by substring
containment either way; `-1` (here `none`) when neither exists. -/
def find_idx (stations : List String) (name : String) : Option ℕ :=
  match listIndex stations name with
  | some i => some i
  | none => stations.findIdx? (fun s => strIn name s || strIn s name)

/-- Direction test `"내선" in str(direction) or "하행" in str(direction)`. -/
def isInnerDir (direction : String) : Bool :=
  strIn ("내선") direction || strIn ("하행") direction

/-- Calibration parameters, `SeatScoreParams`. -/
structure SeatScoreParams where
  beta : ℚ := 3/10
  gamma : ℚ := 1/2
  delta : ℚ := 15/100
  facility_weights : List (String × ℚ) :=
    [("에스컬레이터", 12/10), ("엘리베이터", 0), ("계단", 1)]
  alpha_map : List (String × ℚ) :=
    [("morning_rush", 14/10), ("evening_rush", 13/10), ("midday", 1),
     ("evening", 9/10), ("night", 6/10), ("early", 5/10)]
  deriving DecidableEq

/-- The default parameter snapshot. -/
def defaultParams : SeatScoreParams := {}

/-- Oracles for the transcendental operations of the source:
`qexp` models `np.exp`, `qpow x y` models `x ** y`. -/
structure Oracles where
  qexp : ℚ → ℚ
  qpow : ℚ → ℚ → ℚ

/-- The loaded state of `SeatScoreEngine`: the station table, the
per-source caches (association lists in insertion order, empty list =
absent or empty cache), the travel-time tables, the optional injected
weather service and one calibration snapshot. -/
structure Engine where
  station_order : List String := []
  congestion_30min_cache : List ((String × String × ℤ) × ℚ) := []
  alighting_cache : List ((String × ℤ) × ℚ) := []
  car_congestion_cache : List ((String × ℤ × String) × List ℚ) := []
  getoff_rate_cache : List ((String × ℤ × String) × List ℚ) := []
  train_congestion_cache : List ((String × ℤ × String) × ℚ) := []
  facility_cache : List ((String × String × ℕ) × ℚ) := []
  station_dir_total : List ((String × String) × ℚ) := []
  exit_count_cache : List ((String × String) × List ℕ) := []
  dow_factors : List ((String × String) × ℚ) := []
  tt_stations : List String := []
  tt_cumulative : List ℚ := []
  distance_cum : Option (List ℚ) := none
  weather_service : Option (ℕ → Except Unit ℚ) := none
  data_sources : List String := []
  params : SeatScoreParams := {}

/-- `TOTAL_CARS`. -/
def TOTAL_CARS : ℕ := 10

/-- `SEATS_PER_CAR`. -/
def SEATS_PER_CAR : ℚ := 54

/-- `MAX_CAPACITY`. -/
def MAX_CAPACITY : ℚ := 160

/-- `EMPIRICAL_CAR_DIST`. -/
def EMPIRICAL_CAR_DIST : List ℚ :=
  [88/1000, 102/1000, 111/1000, 116/1000, 111/1000,
   104/1000, 109/1000, 99/1000, 85/1000, 74/1000]

/-- Well-formedness of the loaded travel-time table: the cumulative list
matches the station list and, when present, has a positive loop total.
Python's float `%` would raise on a zero loop total; the loader only
produces tables with matching lengths and positive cumulative seconds. -/
def Engine.WF (e : Engine) : Prop :=
  e.tt_cumulative.length = e.tt_stations.length ∧
    (e.tt_cumulative = [] ∨ 0 < e.tt_cumulative.getLastD 0)

/-- The weekday codes collapsed to a single representative key. -/
def weekday_codes : List String := ["MON", "TUE", "WED", "THU", "FRI"]

/-- `_resolve_sk_key`: falsy day codes become `"MON"`, weekday codes
collapse to `"MON"`, the hour passes through unchanged. -/
def resolve_sk_key (station : String) (hour : ℤ) (dow : Option String) :
    String × ℤ × String :=
  let dow_key := match dow with
    | none => "MON"
    | some s => if s = "" then "MON" else s
  let dow_key := if weekday_codes.contains dow_key then "MON" else dow_key
  (station, hour, dow_key)

/-- `_get_dow_factor`: day-of-week correction factor, `1.0` for a falsy
day code or an absent/empty factor table. -/
def get_dow_factor (e : Engine) (station : String) (dow : Option String) : ℚ :=
  match dow with
  | none => 1
  | some s =>
    if s = "" ∨ e.dow_factors = [] then 1
    else (e.dow_factors.lookup (station, s)).getD 1

/-- `_get_alighting_volume`: direction-aware 30-minute congestion first
(exact key, then the first entry for the same station and hour in
insertion order), then the hourly alighting cache, then `1.0`; always
multiplied by the day-of-week factor. -/
def get_alighting_volume (e : Engine) (station : String) (hour : ℤ)
    (direction : String) (dow : Option String) : ℚ :=
  let dowf := get_dow_factor e station dow
  let hourly := ((e.alighting_cache.lookup (station, hour)).getD 1) * dowf
  if e.congestion_30min_cache ≠ [] ∧ direction ≠ "" then
    let dir_key := if isInnerDir direction then "내선" else "외선"
    match e.congestion_30min_cache.lookup (station, dir_key, hour) with
    | some val => val * dowf
    | none =>
      match e.congestion_30min_cache.find?
          (fun kv => kv.1.1 == station && kv.1.2.2 == hour) with
      | some kv => kv.2 * dowf
      | none => hourly
  else hourly

/-- Distance-table fallback of `_get_travel_time`: absolute cumulative
distance difference plus a `0.1` floor, `1.0` when unresolvable. -/
def travel_time_dist (e : Engine) (station_from station_to : String) : ℚ :=
  match e.distance_cum with
  | none => 1
  | some cum =>
    match listIndex e.station_order station_from,
        listIndex e.station_order station_to with
    | some i, some j =>
      if i < cum.length ∧ j < cum.length then |cum.getD j 0 - cum.getD i 0| + 1/10
      else 1
    | _, _ => 1

/-- `_get_travel_time`: direction-aware cumulative real-time table first
(seconds to minutes, `0.1` floor), else the distance proxy. -/
def get_travel_time (e : Engine) (station_from station_to : String)
    (direction : String) : ℚ :=
  if e.tt_stations ≠ [] ∧ e.tt_cumulative ≠ [] then
    match listIndex e.tt_stations station_from,
        listIndex e.tt_stations station_to with
    | some i, some j =>
      let cum := e.tt_cumulative
      let total_loop := cum.getLastD 0
      let inner_time := qfmod (cum.getD j 0 - cum.getD i 0) total_loop
      let outer_time := total_loop - inner_time
      let tt_sec :=
        if direction ≠ "" then
          if isInnerDir direction then inner_time else outer_time
        else min inner_time outer_time
      max (tt_sec / 60) (1/10)
    | _, _ => travel_time_dist e station_from station_to
  else travel_time_dist e station_from station_to

/-- The rush hours present in the train-congestion cache. -/
def rush_hours : List ℤ := [7, 8, 9, 17, 18, 19]

/-- The best-candidate search loop of `_find_nearest_rush_data`: walks
the rush hours keeping the closest one holding a truthy (nonzero) cache
value, starting from the sentinel distance `999`. -/
def rushLoop (cache : List ((String × ℤ × String) × ℚ)) (station : String)
    (hour : ℤ) (dk : String) : List ℤ → ℤ × Option ℤ → ℤ × Option ℤ
  | [], acc => acc
  | rh :: rest, acc =>
    let acc' :=
      match cache.lookup (station, rh, dk) with
      | some v => if v ≠ 0 ∧ |hour - rh| < acc.1 then (|hour - rh|, some rh) else acc
      | none => acc
    rushLoop cache station hour dk rest acc'

/-- `_find_nearest_rush_data`: nearest rush hour with truthy data,
returned with the distance-decay factor `max(0.3, 1 - 0.12*dist)`. -/
def find_nearest_rush_data (cache : List ((String × ℤ × String) × ℚ))
    (station : String) (hour : ℤ) (dk : String) : Option (ℚ × ℚ) :=
  if cache = [] then none
  else
    match rushLoop cache station hour dk rush_hours (999, none) with
    | (_, none) => none
    | (best_dist, some best_hour) =>
      match cache.lookup (station, best_hour, dk) with
      | none => none
      | some v => some (v, max (3/10) (1 - (best_dist : ℚ) * 12/100))

/-- The congestion-percentage resolution inside
`_get_train_congestion_scale`: exact cache hit, else the nearest rush
entry blended toward the 50% baseline by the decay factor. -/
def resolve_train_congestion (e : Engine) (station : String) (hour : ℤ)
    (dow : Option String) : Option ℚ :=
  let dk := (resolve_sk_key station hour dow).2.2
  match e.train_congestion_cache.lookup (station, hour, dk) with
  | some v => some v
  | none =>
    match find_nearest_rush_data e.train_congestion_cache station hour dk with
    | some (v, decay) => some (decay * v + (1 - decay) * 50)
    | none => none

/-- `_get_train_congestion_scale`: exact cache hit, else nearest rush
data blended toward the 50% baseline, else neutral; the resolved value
is normalized by the (positive, constant) 50% baseline and clamped to
`[0.5, 2.0]`. -/
def get_train_congestion_scale (e : Engine) (station : String) (hour : ℤ)
    (dow : Option String) : ℚ :=
  if e.train_congestion_cache = [] then 1
  else
    match resolve_train_congestion e station hour dow with
    | none => 1
    | some t => max (1/2) (min 2 (t / 50))

/-- `_get_sitting_fraction`: linear interpolation between `0.85` at low
congestion and the seats-to-capacity floor `54/160` at full congestion. -/
def get_sitting_fraction (e : Engine) (station : String) (hour : ℤ)
    (dow : Option String) : ℚ :=
  let minSit := SEATS_PER_CAR / MAX_CAPACITY
  let scale := get_train_congestion_scale e station hour dow
  let pct := scale * 50
  if pct ≤ 30 then 85/100
  else if 100 ≤ pct then minSit
  else 85/100 - ((pct - 30) / 70) * (85/100 - minSit)

/-- `_get_per_station_competitors`: standing competitors of car `car_no`
at a station, from the per-car congestion cache when resolvable, else
from the empirical car distribution; floored at `0.5`. -/
def get_per_station_competitors (e : Engine) (car_no : ℕ) (station : String)
    (hour : ℤ) (dow : Option String) : ℚ :=
  let scale := get_train_congestion_scale e station hour dow
  let total_pax := scale * 50 / 100 * MAX_CAPACITY * get_dow_factor e station dow
  let fromCache : Option ℚ :=
    if e.car_congestion_cache ≠ [] then
      let dk := (resolve_sk_key station hour dow).2.2
      match e.car_congestion_cache.lookup (station, hour, dk) with
      | some congestion =>
        if congestion.length = TOTAL_CARS then
          let total := congestion.sum
          if 0 < total then
            some (max (1/2) (max 0
              (total_pax * TOTAL_CARS * (congestion.getD (car_no - 1) 0 / total)
                - SEATS_PER_CAR)))
          else none
        else none
      | none => none
    else none
  match fromCache with
  | some v => v
  | none =>
    max (1/2) (max 0
      (total_pax * TOTAL_CARS * EMPIRICAL_CAR_DIST.getD (car_no - 1) 0
        - SEATS_PER_CAR))

/-- `_get_empirical_weight`: the global per-car alighting prior adjusted
by the station's per-car exit-count layout (30% blend, `0.01` floor). -/
def get_empirical_weight (e : Engine) (station : String) (car_no : ℕ)
    (direction : String) : ℚ :=
  let base := EMPIRICAL_CAR_DIST.getD (car_no - 1) 0
  let dir_key := if isInnerDir direction then "하행" else "상행"
  match e.exit_count_cache.lookup (station, dir_key) with
  | some exit_counts =>
    if exit_counts ≠ [] then
      let total : ℕ := exit_counts.sum
      if 0 < total then
        let car_exit_pct : ℚ := (exit_counts.getD (car_no - 1) 0 : ℕ) / (total : ℚ)
        max (1/100) (base + 3/10 * (car_exit_pct - 1/10))
      else base
    else base
  | none => base

/-- `_get_car_weight`: SK getoff-rate cache (normalized share, uniform
`1/10` on a zero total), else the empirical weight. -/
def get_car_weight (e : Engine) (station : String) (car_no : ℕ)
    (direction : String) (hour : Option ℤ) (dow : Option String) : ℚ :=
  let fromCache : Option ℚ :=
    match hour with
    | none => none
    | some hr =>
      if e.getoff_rate_cache ≠ [] then
        let dk := (resolve_sk_key station hr dow).2.2
        match e.getoff_rate_cache.lookup (station, hr, dk) with
        | some rates =>
          if rates.length = TOTAL_CARS then
            let total := rates.sum
            if 0 < total then some (rates.getD (car_no - 1) 0 / total)
            else some (1 / TOTAL_CARS)
          else none
        | none => none
      else none
  match fromCache with
  | some v => v
  | none => get_empirical_weight e station car_no direction

/-- `_get_facility_score`: normalized facility weight of a car at a
station, uniform `1/10` when the direction total is not positive. -/
def get_facility_score (e : Engine) (station : String) (car_no : ℕ)
    (direction : String) : ℚ :=
  let dir_key := if isInnerDir direction then "하행" else "상행"
  let car_score := (e.facility_cache.lookup (station, dir_key, car_no)).getD 0
  let total_score := (e.station_dir_total.lookup (station, dir_key)).getD 1
  if total_score ≤ 0 then 1 / TOTAL_CARS else car_score / total_score

/-- `_get_boarding_penalty`: per-car boarding congestion share from the
SK cache, else the facility score; scaled by the train congestion scale. -/
def get_boarding_penalty (e : Engine) (car_no : ℕ) (boarding_station : String)
    (hour : ℤ) (direction : String) (dow : Option String) : ℚ :=
  let base0 : Option ℚ :=
    if e.car_congestion_cache ≠ [] then
      let dk := (resolve_sk_key boarding_station hour dow).2.2
      match e.car_congestion_cache.lookup (boarding_station, hour, dk) with
      | some congestion =>
        if congestion.length = TOTAL_CARS then
          let total := congestion.sum
          if 0 < total then some (congestion.getD (car_no - 1) 0 / total)
          else none
        else none
      | none => none
    else none
  let base := match base0 with
    | some b => b
    | none => get_facility_score e boarding_station car_no direction
  base * get_train_congestion_scale e boarding_station hour dow

/-- The 17 interpolation anchors of `_get_alpha`, with amplitudes taken
from the calibration snapshot's `alpha_map`. -/
def anchorsOf (p : SeatScoreParams) : List (ℚ × ℚ) :=
  let a_morning := (p.alpha_map.lookup ("morning_rush")).getD (14/10)
  let a_evening := (p.alpha_map.lookup ("evening_rush")).getD (13/10)
  let a_midday := (p.alpha_map.lookup ("midday")).getD 1
  let a_eve := (p.alpha_map.lookup ("evening")).getD (9/10)
  let a_night := (p.alpha_map.lookup ("night")).getD (6/10)
  let a_early := (p.alpha_map.lookup ("early")).getD (5/10)
  [(0, a_night), (4, a_early), (6, (a_early + a_midday) / 2),
   (7, (a_midday + a_morning) / 2), (8, a_morning),
   (9, (a_morning + a_midday) / 2), (10, a_midday), (12, a_midday),
   (14, a_midday), (17, (a_midday + a_evening) / 2), (18, a_evening),
   (19, (a_evening + a_evening) / 2 * (104/100)), (20, (a_evening + a_eve) / 2),
   (21, a_eve), (22, (a_eve + a_night) / 2), (23, a_night), (24, a_night)]

/-- The segment search of `_get_alpha`: first anchor pair bracketing the
hour, linear interpolation rounded to two decimals. -/
def interpAnchors (h : ℚ) : List (ℚ × ℚ) → Option ℚ
  | (h1, a1) :: (h2, a2) :: rest =>
    if h1 ≤ h ∧ h < h2 then
      some (round2 (a1 + (h - h1) / (h2 - h1) * (a2 - a1)))
    else interpAnchors h ((h2, a2) :: rest)
  | _ => none

/-- `_get_alpha`: time-of-day multiplier at `hour % 24`, falling back to
the midday amplitude if no segment matches. -/
def get_alpha (p : SeatScoreParams) (hour : ℤ) : ℚ :=
  let h : ℚ := (pymod hour 24 : ℤ)
  match interpAnchors h (anchorsOf p) with
  | some v => v
  | none => (p.alpha_map.lookup ("midday")).getD 1

/-- `_get_intermediate_stations`: the Python slice arithmetic verbatim;
`[]` when either endpoint is unlocatable or the table is empty. -/
def get_intermediate_stations (e : Engine) (boarding destination direction : String) :
    List String :=
  let stations := e.station_order
  if stations = [] then []
  else
    match find_idx stations boarding, find_idx stations destination with
    | some b_idx, some d_idx =>
      if isInnerDir direction then
        if b_idx < d_idx then (stations.drop (b_idx + 1)).take (d_idx - b_idx)
        else stations.drop (b_idx + 1) ++ stations.take (d_idx + 1)
      else
        if d_idx < b_idx then ((stations.drop d_idx).take (b_idx - d_idx)).reverse
        else (stations.take b_idx).reverse ++ (stations.drop d_idx).reverse
    | _, _ => []

/-- One per-station contribution record of the explanation metadata
(the rounded presentation dictionary built inside the car loop). -/
structure Contribution where
  station : String
  dVal : ℚ
  tVal : ℚ
  wVal : ℚ
  lVal : ℚ
  lEffVal : ℚ
  pSit : ℚ
  aVal : ℚ
  cVal : ℚ
  cAdjVal : ℚ
  pCapture : ℚ
  pFirst : ℚ
  contribVal : ℚ
  deriving DecidableEq

/-- The per-station context shared by all cars (`station_context[s]`). -/
structure StationCtx where
  dAlight : ℚ
  tToDest : ℚ
  pSit : ℚ
  competitors : List ℚ
  loadRatios : List ℚ
  deriving DecidableEq

/-- The station-context record computed once per intermediate station in
`compute_seatscore`: alighting volume, remaining travel time, sitting
fraction, the ten per-car competitor counts, and their ratios to the
floored mean. -/
def mkCtx (e : Engine) (destination direction : String) (hour : ℤ)
    (dow : Option String) (s : String) : StationCtx :=
  let competitors := (List.range TOTAL_CARS).map
    (fun i => get_per_station_competitors e (i + 1) s hour dow)
  let mean_comp := if competitors ≠ [] then competitors.sum / TOTAL_CARS else 1
  let mean_comp := max mean_comp (1/1000000000)
  { dAlight := get_alighting_volume e s hour direction dow
    tToDest := get_travel_time e s destination direction
    pSit := get_sitting_fraction e s hour dow
    competitors := competitors
    loadRatios := competitors.map (fun c => c / mean_comp) }

/-- The GAMMA compression and renormalization block of
`compute_seatscore`: `max(0.01, L)^gamma`, renormalized to mean `1.0`,
uniform `1.0` when the mean is not positive. -/
def effLoadFactors (o : Oracles) (gamma : ℚ) (raw : List ℚ) : List ℚ :=
  let comp := raw.map (fun lf => o.qpow (max (1/100) lf) gamma)
  let lf_mean := comp.sum / TOTAL_CARS
  if 0 < lf_mean then comp.map (fun lf => lf / lf_mean)
  else List.replicate TOTAL_CARS 1

/-- The evolving state of one car's walk along the intermediate
stations. -/
structure WalkState where
  benefit : ℚ
  p_not : ℚ
  rem : ℚ
  contribs : List Contribution

/-- One iteration of the station walk for one car: freed-seat estimate,
capture probability through the clamped exponential, competitor
turnover, first-capture benefit accumulation, and the contribution
record. -/
def walkStep (e : Engine) (o : Oracles) (hour : ℤ) (dow : Option String)
    (direction : String) (alpha L_eff : ℚ) (car_no : ℕ)
    (st : WalkState) (sctx : String × StationCtx) : WalkState :=
  let ctx := sctx.2
  let w := get_car_weight e sctx.1 car_no direction (some hour) dow
  let a_freed := ctx.dAlight * w * ctx.pSit * alpha
  let c_comp_base := ctx.competitors.getD (car_no - 1) 0
  let c_comp := c_comp_base * st.rem
  let c_comp_adj := c_comp * L_eff
  let exponent := max (-20) (min 0 (-a_freed / (1/2 + c_comp_adj)))
  let p_capture := clip (1 - o.qexp exponent) 0 1
  let rem' :=
    if 0 < c_comp then
      st.rem * (1 - min (1/2)
        (a_freed * (c_comp_adj / (1/2 + c_comp_adj)) / max 1 c_comp))
    else st.rem
  let p_first := p_capture * st.p_not
  let seated_time := p_first * ctx.tToDest
  { benefit := st.benefit + seated_time
    p_not := st.p_not * (1 - p_capture)
    rem := rem'
    contribs := st.contribs ++ [{
      station := sctx.1, dVal := roundTo 2 ctx.dAlight,
      tVal := roundTo 2 ctx.tToDest, wVal := roundTo 4 w,
      lVal := roundTo 4 (ctx.loadRatios.getD (car_no - 1) 0),
      lEffVal := roundTo 4 L_eff, pSit := roundTo 4 ctx.pSit,
      aVal := roundTo 4 a_freed, cVal := roundTo 4 c_comp,
      cAdjVal := roundTo 4 c_comp_adj, pCapture := roundTo 6 p_capture,
      pFirst := roundTo 6 p_first, contribVal := roundTo 4 seated_time }] }

/-- The outcome of one car's computation. -/
structure CarOut where
  benefit : ℚ
  penalty_val : ℚ
  raw : ℚ
  p_seated : ℚ
  contribs : List Contribution

/-- The off-peak initial-seat probability and station walk of one car:
everything of the car loop that precedes the DELTA bonus and the BETA
penalty.  None of it reads `beta`. -/
def car_walk_state (e : Engine) (o : Oracles) (direction : String) (hour : ℤ)
    (dow : Option String) (alpha : ℚ) (lf_eff : List ℚ)
    (ctxs : List (String × StationCtx)) (car_no : ℕ) : WalkState :=
  let L_eff := lf_eff.getD (car_no - 1) 0
  let p_initial_seated :=
    if alpha < 1 then
      min (6/10) ((1 - alpha) * (7/10) * max (1/2) (1 - (1/2) * max 0 (L_eff - 1)))
    else 0
  let st0 : WalkState := { benefit := 0, p_not := 1 - p_initial_seated, rem := 1, contribs := [] }
  ctxs.foldl (walkStep e o hour dow direction alpha L_eff car_no) st0

/-- One car of the main loop of `compute_seatscore`: DELTA initial
bonus, off-peak initial-seat probability, the station walk, and the
BETA boarding penalty. -/
def carCompute (e : Engine) (o : Oracles) (boarding direction : String)
    (hour : ℤ) (dow : Option String) (alpha : ℚ)
    (ctxs : List (String × StationCtx)) (lf_eff : List ℚ) (total_trip : ℚ)
    (car_no : ℕ) : CarOut :=
  let L_eff := lf_eff.getD (car_no - 1) 0
  let st := car_walk_state e o direction hour dow alpha lf_eff ctxs car_no
  let benefit := st.benefit + e.params.delta * max 0 (1 - L_eff) * total_trip
  let penalty_val :=
    e.params.beta * get_boarding_penalty e car_no boarding hour direction dow * total_trip
  { benefit := benefit, penalty_val := penalty_val, raw := benefit - penalty_val,
    p_seated := clip (1 - st.p_not) 0 (95/100), contribs := st.contribs }

/-- One row of the result DataFrame of `compute_seatscore`. -/
structure Row where
  car : ℕ := 0
  benefit : ℚ := 0
  penalty : ℚ := 0
  load_factor : ℚ := 0
  load_factor_eff : ℚ := 0
  score_raw : ℚ := 0
  score : ℚ := 0
  rank : ℕ := 0
  gap_from_best : ℚ := 0
  spread : ℚ := 0
  deriving DecidableEq

/-- The score-normalization block of `compute_seatscore`: adaptive
sigmoid over the min-max normalized raw scores when they spread, else
the load-factor tiebreak within `[45, 50]`, else the constant `50.0`. -/
def scoreColumn (o : Oracles) (raw lf_raw : List ℚ) : List ℚ :=
  let score_max := listMax raw
  let score_min := listMin raw
  if score_min < score_max then
    let raw_spread := score_max - score_min
    let steepness : ℚ := if raw_spread < 1 then 3 else if 5 < raw_spread then 5 else 4
    raw.map (fun x =>
      let normalized := (x - score_min) / (score_max - score_min)
      let stretched := 1 / (1 + o.qexp (-steepness * (normalized - 1/2)))
      clip (5 + stretched * 90) 5 95)
  else
    let lf_min := listMin lf_raw
    let lf_spread := listMax lf_raw - lf_min
    if 1/1000000000 < lf_spread then
      lf_raw.map (fun lf => 50 - (lf - lf_min) / lf_spread * 5)
    else lf_raw.map (fun _ => 50)

/-- The aggregate result of `compute_seatscore`: the ranked rows plus
the metadata stored in `DataFrame.attrs`. -/
structure ScoreResult where
  rows : List Row
  station_contributions : List (ℕ × List Contribution)
  load_factors_raw : List ℚ
  p_seated : List (ℕ × ℚ)
  deriving DecidableEq

/-- The station-context list of one request (`station_context`, in
traversal order; the Python dict is keyed by the station name and every
context is a pure function of the name, so the association list carries
the same data). -/
def core_ctxs (e : Engine) (destination direction : String) (hour : ℤ)
    (dow : Option String) (intermediates : List String) :
    List (String × StationCtx) :=
  intermediates.map (fun s => (s, mkCtx e destination direction hour dow s))

/-- `station_load_accum` and `load_factors_raw`: per-car load-ratio sums
averaged over the intermediate stations (`ctxs` has one entry per
intermediate station, so its length and emptiness agree with the
Python checks on `intermediates`). -/
def core_lf_raw (ctxs : List (String × StationCtx)) : List ℚ :=
  let accum := ctxs.foldl
    (fun acc sc => List.zipWith (· + ·) acc sc.2.loadRatios)
    (List.replicate TOTAL_CARS 0)
  if ctxs ≠ [] then accum.map (fun v => v / (ctxs.length : ℚ))
  else List.replicate TOTAL_CARS 1

/-- The ten iterations of the car loop, paired with the car numbers. -/
def core_cars (e : Engine) (o : Oracles) (boarding direction : String)
    (hour : ℤ) (dow : Option String) (alpha : ℚ)
    (ctxs : List (String × StationCtx)) (lf_eff : List ℚ) (total_trip : ℚ) :
    List (ℕ × CarOut) :=
  (List.range TOTAL_CARS).map (fun i =>
    (i + 1, carCompute e o boarding direction hour dow alpha ctxs lf_eff total_trip (i + 1)))

/-- `result["rank"] = range(1, len(result) + 1)`: consecutive ranks
starting after `n`. -/
def withRanks : List Row → ℕ → List Row
  | [], _ => []
  | r :: rest, n => { r with rank := n + 1 } :: withRanks rest (n + 1)

/-- The DataFrame assembly of `compute_seatscore`: the ten rows, the
descending stable sort by score, rank assignment and the derived
gap/spread columns. -/
def core_rows (cars : List (ℕ × CarOut)) (scores lf_raw lf_eff : List ℚ) :
    List Row :=
  let rows0 := (cars.zip scores).map (fun p =>
    { car := p.1.1
      benefit := p.1.2.raw + roundTo 4 p.1.2.penalty_val
      penalty := roundTo 4 p.1.2.penalty_val
      load_factor := roundTo 4 (lf_raw.getD (p.1.1 - 1) 0)
      load_factor_eff := roundTo 4 (lf_eff.getD (p.1.1 - 1) 0)
      score_raw := p.1.2.raw
      score := p.2 : Row })
  let ranked := withRanks (rows0.mergeSort (fun a b => decide (b.score ≤ a.score))) 0
  let smax := listMax (ranked.map (·.score))
  let smin := listMin (ranked.map (·.score))
  ranked.map (fun r => { r with gap_from_best := smax - r.score, spread := smax - smin })

/-- The body of `compute_seatscore` after the time-of-day multiplier has
been fixed (`alpha` is the post-weather value): station contexts, load
factors, GAMMA compression, the ten car walks, normalization, the
descending sort by score, ranks `1..10` and the derived gap/spread
columns. -/
def computeCore (e : Engine) (o : Oracles) (boarding destination : String)
    (hour : ℤ) (direction : String) (dow : Option String) (alpha : ℚ) :
    ScoreResult :=
  let intermediates := get_intermediate_stations e boarding destination direction
  let ctxs := core_ctxs e destination direction hour dow intermediates
  let load_factors_raw := core_lf_raw ctxs
  let lf_eff := effLoadFactors o e.params.gamma load_factors_raw
  let total_trip := get_travel_time e boarding destination direction
  let cars := core_cars e o boarding direction hour dow alpha ctxs lf_eff total_trip
  let scores := scoreColumn o (cars.map (fun c => c.2.raw)) load_factors_raw
  { rows := core_rows cars scores load_factors_raw lf_eff
    station_contributions := cars.map (fun c => (c.1, c.2.contribs))
    load_factors_raw := load_factors_raw
    p_seated := cars.map (fun c => (c.1, c.2.p_seated)) }

/-- `compute_seatscore`: computes `alpha`, consults the injected weather
service once when present (the counter argument is the index of that
call; a raised error propagates), and runs the core computation. -/
def computeSeatscoreE (e : Engine) (o : Oracles) (boarding destination : String)
    (hour : ℤ) (direction : String) (dow : Option String) (wcount : ℕ) :
    Except Unit (ScoreResult × ℕ) :=
  let alpha0 := get_alpha e.params hour
  match e.weather_service with
  | none => .ok (computeCore e o boarding destination hour direction dow alpha0, wcount)
  | some w =>
    match w wcount with
    | .error u => .error u
    | .ok f =>
      .ok (computeCore e o boarding destination hour direction dow
        (round2 (alpha0 * f)), wcount + 1)

/-- Skip past the first occurrence of `close`, returning the remainder,
`none` when it never occurs (the regex group then has no match). -/
def dropThroughClose (close : Char) : List Char → Option (List Char)
  | [] => none
  | c :: rest => if c = close then some rest else dropThroughClose close rest

/-- Fueled scan deleting every `open…close` group, the non-overlapping
left-to-right semantics of `re.sub` with the patterns of
`normalize_station_name`; an unclosed `open` is kept. -/
def removeGroupsFuel (openC closeC : Char) : ℕ → List Char → List Char
  | 0, l => l
  | _ + 1, [] => []
  | n + 1, ch :: rest =>
    if ch = openC then
      match dropThroughClose closeC rest with
      | some rem => removeGroupsFuel openC closeC n rem
      | none => ch :: removeGroupsFuel openC closeC n rest
    else ch :: removeGroupsFuel openC closeC n rest

/-- Delete every `open…close` group of a character list. -/
def removeGroups (openC closeC : Char) (l : List Char) : List Char :=
  removeGroupsFuel openC closeC l.length l

/-- The literal three-character suffix stripped by the third `re.sub` of
`normalize_station_name` in `src/utils.py`.  The shipped file carries a
double-encoded byte sequence there (U+00EC, U+2014, U+00AD) rather than
the station-suffix character, so that is the literal the regex matches. -/
def brokenSuffix : List Char := [Char.ofNat 236, Char.ofNat 8212, Char.ofNat 173]

/-- Delete a literal suffix when present (the `pattern$` substitution). -/
def dropSuffix (suf l : List Char) : List Char :=
  if suf <:+ l then l.take (l.length - suf.length) else l

/-- ASCII whitespace recognized by `str.strip`. -/
def isWs (c : Char) : Bool :=
  c = ' ' || c = Char.ofNat 9 || c = Char.ofNat 10 || c = Char.ofNat 13 ||
    c = Char.ofNat 11 || c = Char.ofNat 12

/-- `str.strip()`: drop leading and trailing whitespace. -/
def stripChars (l : List Char) : List Char :=
  ((l.dropWhile isWs).reverse.dropWhile isWs).reverse

/-- `normalize_station_name` of `src/utils.py`: remove parenthesized and
bracketed groups, strip the (mojibake) literal suffix, remove the space
character everywhere, strip residual whitespace.  The `pd.isna` guard of
the source only concerns non-string inputs, outside this model. -/
def normalize_station_name (name : String) : String :=
  let l := name.toList
  let l := removeGroups (Char.ofNat 40) (Char.ofNat 41) l
  let l := removeGroups (Char.ofNat 91) (Char.ofNat 93) l
  let l := dropSuffix brokenSuffix l
  let l := l.filter (fun c => c ≠ ' ')
  String.mk (stripChars l)

/-- The aggregate dictionary returned by `recommend`. -/
structure RecommendResult where
  boarding : String
  destination : String
  hour : ℤ
  direction : String
  alpha : ℚ
  weather_factor : Option ℚ
  n_intermediate : ℕ
  intermediates : List String
  scores : ScoreResult
  best_car : ℕ
  best_score : ℚ
  worst_car : ℕ
  worst_score : ℚ
  score_spread : ℚ
  station_contributions : List (ℕ × List Contribution)
  boarding_congestion : Option ℚ
  load_factors : List (ℕ × ℚ)
  p_seated : List (ℕ × ℚ)
  data_sources : List String
  data_quality : List (String × String)
  seat_times : List (ℕ × ℚ)
  deriving DecidableEq

/-- The expected-seat-time estimate of `recommend` for one car. -/
def seatTimeFor (e : Engine) (boarding direction : String) (total_trip : ℚ)
    (intermediates : List String) (contribs : List Contribution) : ℚ :=
  if contribs = [] then
    if intermediates = [] then 0 else roundTo 1 total_trip
  else
    let acc := contribs.foldl
      (fun (acc : ℚ × ℚ) entry =>
        let t_board :=
          if entry.station ≠ "" then get_travel_time e boarding entry.station direction
          else total_trip
        (acc.1 + entry.pFirst * t_board, acc.2 + entry.pFirst))
      (0, 0)
    roundTo 1 (acc.1 + max 0 (1 - acc.2) * total_trip)

/-- `recommend`: normalizes the station names, consults the injected
weather service (its own call, index 0), invokes `compute_seatscore`
(which consults the weather service again), and assembles the aggregate
result with the per-query data-quality report and seat-time estimates.
The returned natural number is the total number of weather-service
invocations of the request. -/
def recommendE (e : Engine) (o : Oracles) (boarding_station destination_station : String)
    (hour : ℤ) (direction : String) (dow : Option String) :
    Except Unit (RecommendResult × ℕ) := do
  let boarding := normalize_station_name boarding_station
  let destination := normalize_station_name destination_station
  let intermediates := get_intermediate_stations e boarding destination direction
  let alpha0 := get_alpha e.params hour
  let (alpha, weather_factor, k0) ←
    match e.weather_service with
    | none => pure (alpha0, (none : Option ℚ), 0)
    | some w =>
      match w 0 with
      | .error u => Except.error u
      | .ok f => pure (round2 (alpha0 * f), some f, 1)
  let (scores, k1) ← computeSeatscoreE e o boarding destination hour direction dow k0
  let best := scores.rows.headD {}
  let worst := scores.rows.getLastD {}
  let boarding_congestion : Option ℚ :=
    if e.congestion_30min_cache ≠ [] then
      let dir_key := if isInnerDir direction then "내선" else "외선"
      e.congestion_30min_cache.lookup (boarding, dir_key, hour)
    else none
  let dk := (resolve_sk_key boarding hour dow).2.2
  let quality_any := fun (cache : List ((String × ℤ × String) × List ℚ)) =>
    if cache ≠ [] then
      if intermediates.any (fun s => (cache.lookup (s, hour, dk)).isSome) then "exact"
      else "fallback"
    else "fallback"
  let train_quality :=
    if e.train_congestion_cache ≠ [] then
      match e.train_congestion_cache.lookup (boarding, hour, dk) with
      | some _ => "exact"
      | none =>
        if (find_nearest_rush_data e.train_congestion_cache boarding hour dk).isSome
        then "interpolated" else "fallback"
    else "fallback"
  let data_quality : List (String × String) :=
    [("getoff_rate", quality_any e.getoff_rate_cache),
     ("car_congestion", quality_any e.car_congestion_cache),
     ("train_congestion", train_quality),
     ("congestion_30min", if boarding_congestion.isSome then "exact" else "fallback"),
     ("travel_times", if e.tt_stations ≠ [] then "exact" else "fallback")]
  let total_trip := get_travel_time e boarding destination direction
  let seat_times := (List.range TOTAL_CARS).map (fun i =>
    (i + 1, seatTimeFor e boarding direction total_trip intermediates
      ((scores.station_contributions.lookup (i + 1)).getD [])))
  pure ({
    boarding := boarding, destination := destination, hour := hour,
    direction := direction, alpha := alpha, weather_factor := weather_factor,
    n_intermediate := intermediates.length, intermediates := intermediates,
    scores := scores, best_car := best.car, best_score := best.score,
    worst_car := worst.car, worst_score := worst.score,
    score_spread := best.score - worst.score,
    station_contributions := scores.station_contributions,
    boarding_congestion := boarding_congestion,
    load_factors := scores.rows.map (fun r => (r.car, r.load_factor)),
    p_seated := scores.p_seated, data_sources := e.data_sources,
    data_quality := data_quality, seat_times := seat_times }, k1)

/-- The rational stand-ins for `np.exp` and `**` used by concrete runs:
`qexp` is positive, increasing, equals `1` at `0` and is below `1`
exactly on negative inputs, matching the properties of the real
exponential on every input of those runs; `qpow` agrees with the real
power operation whenever the exponent is `1`, the only exponent the
concrete runs use (their snapshots set `gamma = 1`). -/
def ratOracles : Oracles :=
  { qexp := fun x => if x < 0 then 1 / (1 - x) else 1 + x
    qpow := fun x _ => x }

/-- A minimally loaded engine: two stations with a distance table, no
optional caches, no weather service, default calibration. -/
def Ew : Engine := { station_order := ["A", "B"], distance_cum := some [0, 1] }

/-- An engine whose data make all ten raw scores coincide while the
load factors differ: the single intermediate station has alighting
volume `0` (so every capture probability vanishes), the snapshot has
`beta = 0` and `delta = 0` (so no penalty or bonus), and the per-car
congestion at the intermediate station is lopsided. -/
def Etie : Engine := {
  station_order := ["A", "B"]
  distance_cum := some [0, 1]
  congestion_30min_cache := [(("B", "내선", 8), 0)]
  car_congestion_cache := [(("B", 8, "MON"), [1, 1, 1, 1, 1, 1, 1, 1, 1, 11])]
  params := { beta := 0, gamma := 1, delta := 0 } }

/-- The station context of the single intermediate station of `Etie`:
cars 1–9 hold the `0.5` competitor floor and car 10 holds `386`. -/
def ctxTie : StationCtx :=
  { dAlight := 0, tToDest := 1/10, pSit := 197/280
    competitors := [1/2, 1/2, 1/2, 1/2, 1/2, 1/2, 1/2, 1/2, 1/2, 386]
    loadRatios := [10/781, 10/781, 10/781, 10/781, 10/781, 10/781, 10/781,
                   10/781, 10/781, 7720/781] }

/-- The raw load factors of the `Etie` trip. -/
def lfTie : List ℚ :=
  [10/781, 10/781, 10/781, 10/781, 10/781, 10/781, 10/781, 10/781, 10/781, 7720/781]

/-- The calibration snapshot witnessing that the anchor equality fails
for amplitudes that are not two-decimal values. -/
def paramsTiny : SeatScoreParams :=
  { alpha_map := [("morning_rush", 1/1000), ("evening_rush", 13/10), ("midday", 1),
                  ("evening", 9/10), ("night", 6/10), ("early", 1/2)] }

/-- An engine like `Etie` whose single intermediate station has equal
per-car congestion (load factors all `1.0`) while the boarding station's
per-car congestion is lopsided, so that only the BETA penalty
distinguishes the cars. -/
def Ebeta : Engine := {
  station_order := ["A", "B"]
  distance_cum := some [0, 1]
  congestion_30min_cache := [(("B", "내선", 8), 0)]
  car_congestion_cache := [(("B", 8, "MON"), [1, 1, 1, 1, 1, 1, 1, 1, 1, 1]),
                           (("A", 8, "MON"), [3, 1, 1, 1, 1, 1, 1, 1, 1, 1])]
  params := { beta := 0, gamma := 1, delta := 0 } }

/-- `Ebeta` with only the BETA coefficient raised from `0` to `1`. -/
def Ebeta1 : Engine := { Ebeta with params := { Ebeta.params with beta := 1 } }

/-- The station context of the single intermediate station of `Ebeta`:
all ten cars have `26` standing competitors. -/
def ctxBeta : StationCtx :=
  { dAlight := 0, tToDest := 1/10, pSit := 197/280
    competitors := List.replicate 10 26
    loadRatios := List.replicate 10 1 }

/-- The per-car raw scores of one request (the `score_raw` column up to
the descending sort): the same let-chain as `computeCore`, projected. -/
def raw_scores (e : Engine) (o : Oracles) (boarding destination : String)
    (hour : ℤ) (direction : String) (dow : Option String) (alpha : ℚ) : List ℚ :=
  let intermediates := get_intermediate_stations e boarding destination direction
  let ctxs := core_ctxs e destination direction hour dow intermediates
  let load_factors_raw := core_lf_raw ctxs
  let lf_eff := effLoadFactors o e.params.gamma load_factors_raw
  let total_trip := get_travel_time e boarding destination direction
  (core_cars e o boarding direction hour dow alpha ctxs lf_eff total_trip).map
    (fun c => c.2.raw)

/-- Nonnegative congestion and facility data: the per-car congestion
lists and the facility weights hold no negative values (true of every
cache the loader builds from congestion percentages and counts). -/
def CacheNonneg (e : Engine) : Prop :=
  (∀ kv ∈ e.car_congestion_cache, ∀ x ∈ kv.2, 0 ≤ x) ∧
  (∀ kv ∈ e.facility_cache, 0 ≤ kv.2)

/-- `Ew` with a weather service whose every call succeeds with factor
`1.0`. -/
def E9ok : Engine := { Ew with weather_service := some (fun _ => Except.ok 1) }

/-- `Ew` with a weather service whose every call raises. -/
def E9err : Engine := { Ew with weather_service := some (fun _ => Except.error ()) }

/-- A four-station loop used to exercise the slice arithmetic of
`_get_intermediate_stations`. -/
def E3 : Engine := { station_order := ["A", "B", "C", "D"] }

/-- A train-congestion cache with rush-hour data at `8` (60%) and `17`
(80%) for station `S`. -/
def Etr : Engine :=
  { train_congestion_cache := [(("S", 8, "MON"), 60), (("S", 17, "MON"), 80)] }

/-! ### Generic helper lemmas -/

theorem lookup_mem {α β : Type} [BEq α] [LawfulBEq α] :
    ∀ (l : List (α × β)) (k : α) (v : β), l.lookup k = some v → (k, v) ∈ l := by
  intro l k v h
  induction l with
  | nil => simp [List.lookup] at h
  | cons p rest ih =>
    obtain ⟨a, b⟩ := p
    rw [List.lookup] at h
    by_cases hk : k == a
    · simp [hk] at h
      exact List.mem_cons.mpr (Or.inl (by rw [eq_of_beq hk, h]))
    · rw [Bool.not_eq_true] at hk
      rw [hk] at h
      exact List.mem_cons.mpr (Or.inr (ih h))

theorem getD_nonneg {l : List ℚ} {i : ℕ} (h : ∀ x ∈ l, 0 ≤ x) : 0 ≤ l.getD i 0 := by
  rw [List.getD_eq_getElem?_getD]
  cases hg : l[i]? with
  | none => simp
  | some a => simpa using h a (List.getElem?_mem hg)

theorem foldl_max_le_init {l : List ℚ} : ∀ {a b : ℚ}, a ≤ b → a ≤ l.foldl max b := by
  induction l with
  | nil => intro a b h; simpa using h
  | cons x xs ih =>
    intro a b h
    exact ih (le_trans h (le_max_left b x))

theorem le_foldl_max_of_mem {l : List ℚ} {x : ℚ} (hx : x ∈ l) (a : ℚ) :
    x ≤ l.foldl max a := by
  induction l generalizing a with
  | nil => cases hx
  | cons y ys ih =>
    rcases List.mem_cons.mp hx with h | h
    · subst h
      rw [List.foldl_cons]
      exact foldl_max_le_init (le_max_right a x)
    · exact ih h (max a y)

theorem foldl_max_mem {l : List ℚ} : ∀ a : ℚ, l.foldl max a = a ∨ l.foldl max a ∈ l := by
  induction l with
  | nil => intro a; simp
  | cons x xs ih =>
    intro a
    rcases ih (max a x) with h | h
    · rcases max_cases a x with ⟨he, _⟩ | ⟨he, _⟩
      · left; rw [List.foldl, h, he]
      · right; rw [List.foldl, h, he]; exact List.mem_cons_self _ _
    · right; exact List.mem_cons.mpr (Or.inr h)

theorem le_listMax {l : List ℚ} {x : ℚ} (hx : x ∈ l) : x ≤ listMax l := by
  cases l with
  | nil => cases hx
  | cons y ys =>
    rcases List.mem_cons.mp hx with h | h
    · subst h; exact foldl_max_le_init le_rfl
    · exact le_foldl_max_of_mem h y

theorem listMax_mem {l : List ℚ} (h : l ≠ []) : listMax l ∈ l := by
  cases l with
  | nil => exact absurd rfl h
  | cons y ys =>
    rcases foldl_max_mem (l := ys) y with hm | hm
    · rw [listMax, hm]; exact List.mem_cons_self _ _
    · exact List.mem_cons.mpr (Or.inr hm)

theorem foldl_min_le_init {l : List ℚ} : ∀ {a b : ℚ}, b ≤ a → l.foldl min b ≤ a := by
  induction l with
  | nil => intro a b h; simpa using h
  | cons x xs ih =>
    intro a b h
    exact ih (le_trans (min_le_left b x) h)

theorem foldl_min_le_of_mem {l : List ℚ} {x : ℚ} (hx : x ∈ l) (a : ℚ) :
    l.foldl min a ≤ x := by
  induction l generalizing a with
  | nil => cases hx
  | cons y ys ih =>
    rcases List.mem_cons.mp hx with h | h
    · subst h
      rw [List.foldl_cons]
      exact foldl_min_le_init (min_le_right a x)
    · exact ih h (min a y)

theorem foldl_min_mem {l : List ℚ} : ∀ a : ℚ, l.foldl min a = a ∨ l.foldl min a ∈ l := by
  induction l with
  | nil => intro a; simp
  | cons x xs ih =>
    intro a
    rcases ih (min a x) with h | h
    · rcases min_cases a x with ⟨he, _⟩ | ⟨he, _⟩
      · left; rw [List.foldl, h, he]
      · right; rw [List.foldl, h, he]; exact List.mem_cons_self _ _
    · right; exact List.mem_cons.mpr (Or.inr h)

theorem listMin_le {l : List ℚ} {x : ℚ} (hx : x ∈ l) : listMin l ≤ x := by
  cases l with
  | nil => cases hx
  | cons y ys =>
    rcases List.mem_cons.mp hx with h | h
    · subst h; exact foldl_min_le_init le_rfl
    · exact foldl_min_le_of_mem h y

theorem listMin_mem {l : List ℚ} (h : l ≠ []) : listMin l ∈ l := by
  cases l with
  | nil => exact absurd rfl h
  | cons y ys =>
    rcases foldl_min_mem (l := ys) y with hm | hm
    · rw [listMin, hm]; exact List.mem_cons_self _ _
    · exact List.mem_cons.mpr (Or.inr hm)

theorem sum_map_div (l : List ℚ) (m : ℚ) :
    (l.map (fun x => x / m)).sum = l.sum / m := by
  induction l with
  | nil => simp
  | cons x xs ih => simp [ih, add_div]

/-! ### Structural lemmas about the scoring pipeline -/

theorem mkCtx_loadRatios_length (e : Engine) (destination direction : String)
    (hour : ℤ) (dow : Option String) (s : String) :
    (mkCtx e destination direction hour dow s).loadRatios.length = TOTAL_CARS := by
  simp [mkCtx]

theorem foldl_zipWith_length (ctxs : List (String × StationCtx)) :
    ∀ acc : List ℚ, acc.length = TOTAL_CARS →
      (∀ c ∈ ctxs, c.2.loadRatios.length = TOTAL_CARS) →
      (ctxs.foldl (fun acc sc => List.zipWith (· + ·) acc sc.2.loadRatios) acc).length
        = TOTAL_CARS := by
  induction ctxs with
  | nil => intro acc ha _; simpa using ha
  | cons c rest ih =>
    intro acc ha hall
    rw [List.foldl_cons]
    refine ih _ ?_ (fun x hx => hall x (List.mem_cons.mpr (Or.inr hx)))
    rw [List.length_zipWith, ha, hall c (List.mem_cons_self _ _)]
    exact min_self _

theorem core_lf_raw_length (ctxs : List (String × StationCtx))
    (h : ∀ c ∈ ctxs, c.2.loadRatios.length = TOTAL_CARS) :
    (core_lf_raw ctxs).length = TOTAL_CARS := by
  unfold core_lf_raw
  by_cases hc : ctxs ≠ []
  · rw [if_pos hc, List.length_map]
    exact foldl_zipWith_length ctxs _ (List.length_replicate _ _) h
  · rw [if_neg hc]
    exact List.length_replicate _ _

theorem core_ctxs_loadRatios_length (e : Engine) (destination direction : String)
    (hour : ℤ) (dow : Option String) (inter : List String) :
    ∀ c ∈ core_ctxs e destination direction hour dow inter,
      c.2.loadRatios.length = TOTAL_CARS := by
  intro c hc
  obtain ⟨s, _, rfl⟩ := List.mem_map.mp hc
  exact mkCtx_loadRatios_length e destination direction hour dow s

theorem core_cars_length (e : Engine) (o : Oracles) (boarding direction : String)
    (hour : ℤ) (dow : Option String) (alpha : ℚ) (ctxs : List (String × StationCtx))
    (lf_eff : List ℚ) (total_trip : ℚ) :
    (core_cars e o boarding direction hour dow alpha ctxs lf_eff total_trip).length
      = TOTAL_CARS := by
  simp [core_cars]

theorem scoreColumn_length (o : Oracles) (raw lf : List ℚ) {n : ℕ}
    (hraw : raw.length = n) (hlf : lf.length = n) :
    (scoreColumn o raw lf).length = n := by
  simp only [scoreColumn]
  split
  · simpa using hraw
  · split <;> simpa using hlf

theorem withRanks_map_score : ∀ (l : List Row) (n : ℕ),
    (withRanks l n).map Row.score = l.map Row.score := by
  intro l
  induction l with
  | nil => intro n; rfl
  | cons r rest ih => intro n; simp [withRanks, ih]

theorem withRanks_map_rank : ∀ (l : List Row) (n : ℕ),
    (withRanks l n).map Row.rank = List.range' (n + 1) l.length := by
  intro l
  induction l with
  | nil => intro n; rfl
  | cons r rest ih =>
    intro n
    rw [withRanks, List.map_cons, ih, List.length_cons, List.range'_succ]

theorem map_score_gap_update (l : List Row) (smax smin : ℚ) :
    (l.map (fun r => { r with gap_from_best := smax - r.score, spread := smax - smin
      : Row })).map Row.score = l.map Row.score := by
  rw [List.map_map]
  rfl

theorem core_rows_map_score_perm (cars : List (ℕ × CarOut)) (scores lf_raw lf_eff : List ℚ)
    (h : scores.length ≤ cars.length) :
    ((core_rows cars scores lf_raw lf_eff).map Row.score).Perm scores := by
  unfold core_rows
  rw [map_score_gap_update, withRanks_map_score]
  have h0 : ((cars.zip scores).map (fun p =>
      { car := p.1.1
        benefit := p.1.2.raw + roundTo 4 p.1.2.penalty_val
        penalty := roundTo 4 p.1.2.penalty_val
        load_factor := roundTo 4 (lf_raw.getD (p.1.1 - 1) 0)
        load_factor_eff := roundTo 4 (lf_eff.getD (p.1.1 - 1) 0)
        score_raw := p.1.2.raw
        score := p.2 : Row })).map Row.score = scores := by
    rw [List.map_map]
    have : (Row.score ∘ fun p : (ℕ × CarOut) × ℚ =>
        ({ car := p.1.1
           benefit := p.1.2.raw + roundTo 4 p.1.2.penalty_val
           penalty := roundTo 4 p.1.2.penalty_val
           load_factor := roundTo 4 (lf_raw.getD (p.1.1 - 1) 0)
           load_factor_eff := roundTo 4 (lf_eff.getD (p.1.1 - 1) 0)
           score_raw := p.1.2.raw
           score := p.2 : Row })) = Prod.snd := funext fun p => rfl
    rw [this]
    exact List.map_snd_zip cars scores h
  calc ((cars.zip scores).map _ |>.mergeSort (fun a b => decide (b.score ≤ a.score))
          |>.map Row.score).Perm
        (((cars.zip scores).map _).map Row.score) :=
        (List.mergeSort_perm _ _).map Row.score
    _ = scores := h0

theorem core_rows_length (cars : List (ℕ × CarOut)) (scores lf_raw lf_eff : List ℚ) :
    (core_rows cars scores lf_raw lf_eff).length = min cars.length scores.length := by
  unfold core_rows
  simp only [List.length_map]
  have : ∀ (l : List Row) (n : ℕ), (withRanks l n).length = l.length := by
    intro l
    induction l with
    | nil => intro n; rfl
    | cons r rest ih => intro n; simp [withRanks, ih]
  rw [this, List.length_mergeSort, List.length_map, List.length_zip]

theorem core_rows_map_rank (cars : List (ℕ × CarOut)) (scores lf_raw lf_eff : List ℚ) :
    (core_rows cars scores lf_raw lf_eff).map Row.rank
      = List.range' 1 (min cars.length scores.length) := by
  unfold core_rows
  have hrk : ∀ (l : List Row) (smax smin : ℚ),
      (l.map (fun r => { r with gap_from_best := smax - r.score, spread := smax - smin
        : Row })).map Row.rank = l.map Row.rank := by
    intro l smax smin
    rw [List.map_map]
    rfl
  rw [hrk, withRanks_map_rank, List.length_mergeSort, List.length_map, List.length_zip]

theorem core_rows_sorted (cars : List (ℕ × CarOut)) (scores lf_raw lf_eff : List ℚ) :
    ((core_rows cars scores lf_raw lf_eff).map Row.score).Pairwise
      (fun x y : ℚ => y ≤ x) := by
  unfold core_rows
  rw [map_score_gap_update, withRanks_map_score, List.pairwise_map]
  have h1 : ∀ a b c : Row, decide (b.score ≤ a.score) = true →
      decide (c.score ≤ b.score) = true → decide (c.score ≤ a.score) = true := by
    intro a b c hab hbc
    simp only [decide_eq_true_eq] at hab hbc ⊢
    exact le_trans hbc hab
  have h2 : ∀ a b : Row,
      (decide (b.score ≤ a.score) || decide (a.score ≤ b.score)) = true := by
    intro a b
    simp only [Bool.or_eq_true, decide_eq_true_eq]
    exact le_total b.score a.score
  exact (List.sorted_mergeSort h1 h2 _).imp (fun hab => by simpa using hab)

theorem withRanks_map_raw : ∀ (l : List Row) (n : ℕ),
    (withRanks l n).map Row.score_raw = l.map Row.score_raw := by
  intro l
  induction l with
  | nil => intro n; rfl
  | cons r rest ih => intro n; simp [withRanks, ih]

theorem withRanks_map_pair : ∀ (l : List Row) (n : ℕ),
    (withRanks l n).map (fun r => (r.car, r.score))
      = l.map (fun r => (r.car, r.score)) := by
  intro l
  induction l with
  | nil => intro n; rfl
  | cons r rest ih => intro n; simp [withRanks, ih]

theorem map_raw_gap_update (l : List Row) (smax smin : ℚ) :
    (l.map (fun r => { r with gap_from_best := smax - r.score, spread := smax - smin
      : Row })).map Row.score_raw = l.map Row.score_raw := by
  rw [List.map_map]
  rfl

theorem map_pair_gap_update (l : List Row) (smax smin : ℚ) :
    (l.map (fun r => { r with gap_from_best := smax - r.score, spread := smax - smin
      : Row })).map (fun r => (r.car, r.score))
      = l.map (fun r => (r.car, r.score)) := by
  rw [List.map_map]
  rfl

theorem core_rows_map_raw_perm (cars : List (ℕ × CarOut)) (scores lf_raw lf_eff : List ℚ)
    (h : cars.length = scores.length) :
    ((core_rows cars scores lf_raw lf_eff).map Row.score_raw).Perm
      (cars.map (fun c => c.2.raw)) := by
  unfold core_rows
  rw [map_raw_gap_update, withRanks_map_raw]
  have h0 : ((cars.zip scores).map (fun p =>
      { car := p.1.1
        benefit := p.1.2.raw + roundTo 4 p.1.2.penalty_val
        penalty := roundTo 4 p.1.2.penalty_val
        load_factor := roundTo 4 (lf_raw.getD (p.1.1 - 1) 0)
        load_factor_eff := roundTo 4 (lf_eff.getD (p.1.1 - 1) 0)
        score_raw := p.1.2.raw
        score := p.2 : Row })).map Row.score_raw = cars.map (fun c => c.2.raw) := by
    rw [List.map_map]
    refine List.ext_getElem (by simp [List.length_zip, h]) ?_
    intro n h1 h2
    simp only [List.getElem_map, List.getElem_zip]
    rfl
  calc ((cars.zip scores).map _ |>.mergeSort (fun a b => decide (b.score ≤ a.score))
          |>.map Row.score_raw).Perm
        (((cars.zip scores).map _).map Row.score_raw) :=
        (List.mergeSort_perm _ _).map Row.score_raw
    _ = cars.map (fun c => c.2.raw) := h0

theorem core_rows_map_pair_perm (cars : List (ℕ × CarOut)) (scores lf_raw lf_eff : List ℚ)
    (h : cars.length = scores.length) :
    ((core_rows cars scores lf_raw lf_eff).map (fun r => (r.car, r.score))).Perm
      ((cars.map Prod.fst).zip scores) := by
  unfold core_rows
  rw [map_pair_gap_update, withRanks_map_pair]
  have h0 : ((cars.zip scores).map (fun p =>
      { car := p.1.1
        benefit := p.1.2.raw + roundTo 4 p.1.2.penalty_val
        penalty := roundTo 4 p.1.2.penalty_val
        load_factor := roundTo 4 (lf_raw.getD (p.1.1 - 1) 0)
        load_factor_eff := roundTo 4 (lf_eff.getD (p.1.1 - 1) 0)
        score_raw := p.1.2.raw
        score := p.2 : Row })).map (fun r => (r.car, r.score))
      = (cars.map Prod.fst).zip scores := by
    rw [List.map_map]
    refine List.ext_getElem (by simp [List.length_zip, h]) ?_
    intro n h1 h2
    simp only [List.getElem_map, List.getElem_zip]
    rfl
  rw [← h0]
  exact (List.mergeSort_perm _ _).map _

theorem computeCore_rows_spec (e : Engine) (o : Oracles) (b d : String)
    (hour : ℤ) (dir : String) (dow : Option String) (alpha : ℚ) :
    (computeCore e o b d hour dir dow alpha).rows.length = TOTAL_CARS ∧
    (computeCore e o b d hour dir dow alpha).rows.map Row.rank
      = List.range' 1 TOTAL_CARS ∧
    ((computeCore e o b d hour dir dow alpha).rows.map Row.score).Pairwise
      (fun x y : ℚ => y ≤ x) := by
  have hlf : (core_lf_raw (core_ctxs e d dir hour dow
      (get_intermediate_stations e b d dir))).length = TOTAL_CARS :=
    core_lf_raw_length _ (core_ctxs_loadRatios_length e d dir hour dow _)
  have hcars := core_cars_length e o b dir hour dow alpha
    (core_ctxs e d dir hour dow (get_intermediate_stations e b d dir))
    (effLoadFactors o e.params.gamma (core_lf_raw (core_ctxs e d dir hour dow
      (get_intermediate_stations e b d dir))))
    (get_travel_time e b d dir)
  have hscores := scoreColumn_length o
    ((core_cars e o b dir hour dow alpha
        (core_ctxs e d dir hour dow (get_intermediate_stations e b d dir))
        (effLoadFactors o e.params.gamma (core_lf_raw (core_ctxs e d dir hour dow
          (get_intermediate_stations e b d dir))))
        (get_travel_time e b d dir)).map (fun c => c.2.raw))
    (core_lf_raw (core_ctxs e d dir hour dow (get_intermediate_stations e b d dir)))
    (by rw [List.length_map, hcars]) hlf
  simp only [computeCore]
  refine ⟨?_, ?_, core_rows_sorted _ _ _ _⟩
  · rw [core_rows_length, hcars, hscores]
    exact min_self _
  · rw [core_rows_map_rank, hcars, hscores, min_self]

/-- C1.  For every valid trip (boarding and destination locatable in the
station table), `compute_seatscore` returns exactly 10 per-car records,
whose rank values are `1..10` in row order (hence a permutation of
`1..10`), and whose normalized score is non-increasing when the records
are read in rank order. -/
theorem C1_ten_records_ranked_sorted (e : Engine) (o : Oracles)
    (b d : String) (hour : ℤ) (dir : String) (dow : Option String)
    (k k' : ℕ) (res : ScoreResult)
    (hb : (find_idx e.station_order b).isSome = true)
    (hd : (find_idx e.station_order d).isSome = true)
    (hok : computeSeatscoreE e o b d hour dir dow k = Except.ok (res, k')) :
    res.rows.length = TOTAL_CARS ∧
    res.rows.map Row.rank = List.range' 1 TOTAL_CARS ∧
    (res.rows.map Row.score).Pairwise (fun x y : ℚ => y ≤ x) := by
  have hres : ∃ a, res = computeCore e o b d hour dir dow a := by
    unfold computeSeatscoreE at hok
    cases hw : e.weather_service with
    | none =>
      rw [hw] at hok
      simp only [Except.ok.injEq, Prod.mk.injEq] at hok
      exact ⟨_, hok.1.symm⟩
    | some w =>
      rw [hw] at hok
      dsimp only at hok
      cases hwk : w k with
      | error u => rw [hwk] at hok; simp at hok
      | ok f =>
        rw [hwk] at hok
        simp only [Except.ok.injEq, Prod.mk.injEq] at hok
        exact ⟨_, hok.1.symm⟩
  obtain ⟨a, rfl⟩ := hres
  exact computeCore_rows_spec e o b d hour dir dow a

/-- C10.  For every station, hour, day code and loaded cache state, the
train-level congestion scale lies in the closed band `[0.5, 2.0]`
(`value/50` is clamped there), and consequently the derived sitting
fraction always lies in `[54/160, 0.85]`. -/
theorem C10_scale_clamped_sitting_bounded (e : Engine) (station : String)
    (hour : ℤ) (dow : Option String) :
    (1/2 ≤ get_train_congestion_scale e station hour dow ∧
      get_train_congestion_scale e station hour dow ≤ 2) ∧
    (54/160 ≤ get_sitting_fraction e station hour dow ∧
      get_sitting_fraction e station hour dow ≤ 85/100) := by
  constructor
  · unfold get_train_congestion_scale
    split
    · norm_num
    · split
      · norm_num
      · constructor
        · exact le_max_left _ _
        · exact max_le (by norm_num) (min_le_left _ _)
  · unfold get_sitting_fraction
    dsimp only
    split
    · norm_num [SEATS_PER_CAR, MAX_CAPACITY]
    · split
      · norm_num [SEATS_PER_CAR, MAX_CAPACITY]
      · rename_i h30 h100
        rw [not_le] at h30 h100
        simp only [SEATS_PER_CAR, MAX_CAPACITY] at h30 h100 ⊢
        constructor <;> nlinarith

/-- Witness for C1 at a concrete engine and trip. -/
theorem C1_witness :
    (find_idx Ew.station_order ("A")).isSome = true ∧
    (find_idx Ew.station_order ("B")).isSome = true ∧
    ((computeCore Ew ratOracles ("A") ("B") 8 ("내선") none
        (get_alpha Ew.params 8)).rows.length = TOTAL_CARS ∧
      (computeCore Ew ratOracles ("A") ("B") 8 ("내선") none
        (get_alpha Ew.params 8)).rows.map Row.rank = List.range' 1 TOTAL_CARS ∧
      ((computeCore Ew ratOracles ("A") ("B") 8 ("내선") none
        (get_alpha Ew.params 8)).rows.map Row.score).Pairwise
          (fun x y : ℚ => y ≤ x)) :=
  ⟨by decide, by decide,
    C1_ten_records_ranked_sorted Ew ratOracles ("A") ("B") 8 ("내선") none 0 0 _
      (by decide) (by decide) rfl⟩

/-- C7.  For every 10-car raw load-factor vector whose GAMMA-compressed
values `max(0.01, L)^gamma` have nonzero mean, the renormalized
effective load factors have mean exactly `1.0` across the 10 cars; if
that mean is zero, every car's effective load factor is set to `1.0`. -/
theorem C7_gamma_renormalized_mean (o : Oracles) (gamma : ℚ) (raw : List ℚ)
    (hlen : raw.length = TOTAL_CARS) :
    (((raw.map (fun lf => o.qpow (max (1/100) lf) gamma)).sum / (TOTAL_CARS : ℚ) ≠ 0 →
      (effLoadFactors o gamma raw).sum / (TOTAL_CARS : ℚ) = 1) ∧
    ((raw.map (fun lf => o.qpow (max (1/100) lf) gamma)).sum / (TOTAL_CARS : ℚ) = 0 →
      effLoadFactors o gamma raw = List.replicate TOTAL_CARS 1)) := by
  constructor
  · intro hne
    unfold effLoadFactors
    dsimp only
    split
    · rename_i hpos
      rw [sum_map_div, div_div, mul_comm, ← div_div]
      exact div_self hne
    · rw [List.sum_replicate]
      norm_num [TOTAL_CARS]
  · intro h0
    unfold effLoadFactors
    dsimp only
    rw [if_neg]
    rw [h0]
    norm_num

/-- Witness for C7 at the uniform raw vector. -/
theorem C7_witness :
    (List.replicate TOTAL_CARS (1 : ℚ)).length = TOTAL_CARS ∧
    ((List.replicate TOTAL_CARS (1 : ℚ)).map
      (fun lf => ratOracles.qpow (max (1/100) lf) 1)).sum / (TOTAL_CARS : ℚ) ≠ 0 ∧
    (effLoadFactors ratOracles 1 (List.replicate TOTAL_CARS 1)).sum / (TOTAL_CARS : ℚ) = 1 :=
  have hne : ((List.replicate TOTAL_CARS (1 : ℚ)).map
      (fun lf => ratOracles.qpow (max (1/100) lf) 1)).sum / (TOTAL_CARS : ℚ) ≠ 0 := by
    norm_num [ratOracles, TOTAL_CARS, List.sum_replicate]
  ⟨by decide, hne,
    (C7_gamma_renormalized_mean ratOracles 1 (List.replicate TOTAL_CARS 1)
      (by decide)).1 hne⟩

theorem mkCtx_Etie : mkCtx Etie ("B") ("내선") 8 none ("B") = ctxTie := by
  norm_num [mkCtx, ctxTie, Etie, get_alighting_volume, get_dow_factor, get_travel_time,
    travel_time_dist, get_sitting_fraction, get_train_congestion_scale,
    get_per_station_competitors, resolve_sk_key, weekday_codes, List.lookup,
    listIndex, isInnerDir, strIn, EMPIRICAL_CAR_DIST, SEATS_PER_CAR, MAX_CAPACITY,
    TOTAL_CARS, List.range, List.range.loop, max_def, min_def, abs]
  try simp
  try norm_num

theorem alpha_Etie : get_alpha Etie.params 8 = 7/5 := by
  unfold get_alpha anchorsOf
  rw [show pymod 8 24 = 8 from by decide]
  norm_num [interpAnchors, Etie, List.lookup, round2, roundTo]

theorem ctxs_Etie : core_ctxs Etie ("B") ("내선") 8 none ["B"] = [(("B"), ctxTie)] := by
  simp [core_ctxs, mkCtx_Etie]

theorem lf_Etie : core_lf_raw [(("B"), ctxTie)] = lfTie := by
  norm_num [core_lf_raw, ctxTie, lfTie, TOTAL_CARS, List.replicate, List.zipWith]
  try simp
  try norm_num

theorem eff_Etie : effLoadFactors ratOracles 1 lfTie = lfTie := by
  norm_num [effLoadFactors, ratOracles, lfTie, TOTAL_CARS, max_def]
  try simp
  try norm_num

theorem trip_Etie : get_travel_time Etie ("A") ("B") ("내선") = 11/10 := by
  norm_num [get_travel_time, travel_time_dist, Etie, listIndex, max_def, min_def, abs]
  try simp
  try norm_num

theorem carraw_Etie (c : ℕ) :
    (carCompute Etie ratOracles ("A") ("내선") 8 none (7/5) [(("B"), ctxTie)] lfTie
      (11/10) c).raw = 0 := by
  norm_num [carCompute, car_walk_state, walkStep, ctxTie, Etie, ratOracles, clip,
    max_def, min_def]
  try simp
  try norm_num

theorem rawlist_Etie :
    (core_cars Etie ratOracles ("A") ("내선") 8 none (7/5) [(("B"), ctxTie)] lfTie
      (11/10)).map (fun c => c.2.raw) = List.replicate 10 0 := by
  simp [core_cars, TOTAL_CARS, List.range, List.range.loop, carraw_Etie, List.replicate]

theorem scores_Etie :
    scoreColumn ratOracles (List.replicate 10 0) lfTie
      = [50, 50, 50, 50, 50, 50, 50, 50, 50, 45] := by
  norm_num [scoreColumn, lfTie, listMax, listMin, List.replicate, ratOracles,
    TOTAL_CARS, max_def, min_def]
  try simp
  try norm_num

theorem rows_Etie :
    (computeCore Etie ratOracles ("A") ("B") 8 ("내선") none
        (get_alpha Etie.params 8)).rows
      = core_rows (core_cars Etie ratOracles ("A") ("내선") 8 none (7/5)
          [(("B"), ctxTie)] lfTie (11/10))
          [50, 50, 50, 50, 50, 50, 50, 50, 50, 45] lfTie lfTie := by
  simp only [computeCore, alpha_Etie,
    show get_intermediate_stations Etie ("A") ("B") ("내선") = ["B"] from by decide,
    ctxs_Etie, lf_Etie, show Etie.params.gamma = 1 from rfl, eff_Etie, trip_Etie,
    rawlist_Etie, scores_Etie]

theorem raws_zero_Etie :
    ∀ r ∈ (computeCore Etie ratOracles ("A") ("B") 8 ("내선") none
        (get_alpha Etie.params 8)).rows, r.score_raw = 0 := by
  intro r hr
  rw [rows_Etie] at hr
  have h1 := core_rows_map_raw_perm
    (core_cars Etie ratOracles ("A") ("내선") 8 none (7/5) [(("B"), ctxTie)] lfTie (11/10))
    [50, 50, 50, 50, 50, 50, 50, 50, 50, 45] lfTie lfTie
    (by rw [core_cars_length]; rfl)
  rw [rawlist_Etie] at h1
  exact List.eq_of_mem_replicate
    (h1.mem_iff.mp (List.mem_map_of_mem Row.score_raw hr))

theorem mem45_Etie :
    (45 : ℚ) ∈ ((computeCore Etie ratOracles ("A") ("B") 8 ("내선") none
        (get_alpha Etie.params 8)).rows).map Row.score := by
  rw [rows_Etie]
  have h2 := core_rows_map_score_perm
    (core_cars Etie ratOracles ("A") ("내선") 8 none (7/5) [(("B"), ctxTie)] lfTie (11/10))
    [50, 50, 50, 50, 50, 50, 50, 50, 50, 45] lfTie lfTie
    (by rw [core_cars_length]; decide)
  exact h2.mem_iff.mpr (by norm_num)

/-- C2, counterexample.  On the `Etie` trip every raw score is `0`
(the claim's premise of numerically equal raw scores holds), yet the
most-loaded car's normalized score is `45`, outside the claimed band
`[47.5, 52.5]`: the tiebreak formula `50 - lf_norm * 5` spans
`[45, 50]`, not the `[47.5, 52.5]` stated by the spec (and by the
stale inline comment next to the formula). -/
theorem C2_counterexample :
    ∃ res : ScoreResult,
      computeSeatscoreE Etie ratOracles ("A") ("B") 8 ("내선") none 0
        = Except.ok (res, 0) ∧
      (∀ r ∈ res.rows, r.score_raw = 0) ∧
      (45 : ℚ) ∈ res.rows.map Row.score ∧
      ¬((95/2 : ℚ) ≤ 45) :=
  ⟨computeCore Etie ratOracles ("A") ("B") 8 ("내선") none (get_alpha Etie.params 8),
    rfl, raws_zero_Etie, mem45_Etie, by norm_num⟩

/-- C2 amended.  For every trip in which all 10 per-car raw scores are
numerically equal, every normalized score lies inside `[45, 50]` and
the scores are exactly the load-factor tiebreak `50 - 5·(L - min)/spread`
(less-loaded cars score higher); if the raw load factors are also equal
(spread ≤ 1e-9), every car's normalized score is exactly `50.0`. -/
theorem C2_tie_band (e : Engine) (o : Oracles) (b d : String) (hour : ℤ)
    (dir : String) (dow : Option String) (alpha : ℚ)
    (heq : ∀ r1 ∈ (computeCore e o b d hour dir dow alpha).rows,
      ∀ r2 ∈ (computeCore e o b d hour dir dow alpha).rows,
        r1.score_raw = r2.score_raw) :
    (∀ r ∈ (computeCore e o b d hour dir dow alpha).rows,
      45 ≤ r.score ∧ r.score ≤ 50) ∧
    (1/1000000000 <
        listMax (computeCore e o b d hour dir dow alpha).load_factors_raw
          - listMin (computeCore e o b d hour dir dow alpha).load_factors_raw →
      ((computeCore e o b d hour dir dow alpha).rows.map Row.score).Perm
        ((computeCore e o b d hour dir dow alpha).load_factors_raw.map (fun v =>
          50 - (v - listMin (computeCore e o b d hour dir dow alpha).load_factors_raw) /
            (listMax (computeCore e o b d hour dir dow alpha).load_factors_raw
              - listMin (computeCore e o b d hour dir dow alpha).load_factors_raw) * 5))) ∧
    (listMax (computeCore e o b d hour dir dow alpha).load_factors_raw
        - listMin (computeCore e o b d hour dir dow alpha).load_factors_raw
        ≤ 1/1000000000 →
      ∀ r ∈ (computeCore e o b d hour dir dow alpha).rows, r.score = 50) := by
  have hctx := core_ctxs_loadRatios_length e d dir hour dow
    (get_intermediate_stations e b d dir)
  set inter := get_intermediate_stations e b d dir with hinter
  set ctxs := core_ctxs e d dir hour dow inter with hctxs
  set LF := core_lf_raw ctxs with hLF
  set LFE := effLoadFactors o e.params.gamma LF with hLFE
  set TT := get_travel_time e b d dir with hTT
  set CARS := core_cars e o b dir hour dow alpha ctxs LFE TT with hCARS
  set RAW := CARS.map (fun c => c.2.raw) with hRAW
  set SCORES := scoreColumn o RAW LF with hSCORES
  have hres : computeCore e o b d hour dir dow alpha =
      { rows := core_rows CARS SCORES LF LFE
        station_contributions := CARS.map (fun c => (c.1, c.2.contribs))
        load_factors_raw := LF
        p_seated := CARS.map (fun c => (c.1, c.2.p_seated)) } := by
    rw [computeCore]
  have hcarslen : CARS.length = TOTAL_CARS := core_cars_length e o b dir hour dow alpha ctxs LFE TT
  have hlflen : LF.length = TOTAL_CARS := core_lf_raw_length ctxs hctx
  have hrawlen : RAW.length = TOTAL_CARS := by rw [hRAW, List.length_map, hcarslen]
  have hscoreslen : SCORES.length = TOTAL_CARS := scoreColumn_length o RAW LF hrawlen hlflen
  have hlen : CARS.length = SCORES.length := by rw [hcarslen, hscoreslen]
  -- every element of RAW is equal to every other
  have hrawperm := core_rows_map_raw_perm CARS SCORES LF LFE hlen
  have hraweq : ∀ x ∈ RAW, ∀ y ∈ RAW, x = y := by
    intro x hx y hy
    obtain ⟨r1, hr1, hx1⟩ := List.mem_map.mp (hrawperm.mem_iff.mpr hx)
    obtain ⟨r2, hr2, hy1⟩ := List.mem_map.mp (hrawperm.mem_iff.mpr hy)
    rw [← hx1, ← hy1]
    have := heq r1 (by rw [hres]; exact hr1) r2 (by rw [hres]; exact hr2)
    exact this
  have hrawne : RAW ≠ [] := by
    intro hnil
    rw [hnil] at hrawlen
    exact absurd hrawlen.symm (by decide)
  have hmaxmin : ¬ listMin RAW < listMax RAW := by
    rw [hraweq (listMax RAW) (listMax_mem hrawne) (listMin RAW) (listMin_mem hrawne)]
    exact lt_irrefl _
  -- the normalization takes the tie branch
  have hscol : SCORES =
      (if 1/1000000000 < listMax LF - listMin LF then
        LF.map (fun v => 50 - (v - listMin LF) / (listMax LF - listMin LF) * 5)
      else LF.map (fun _ => 50)) := by
    rw [hSCORES]
    simp only [scoreColumn]
    rw [if_neg hmaxmin]
  have hscoreperm := core_rows_map_score_perm CARS SCORES LF LFE (le_of_eq hlen.symm)
  rw [hres]
  by_cases hsp : 1/1000000000 < listMax LF - listMin LF
  · rw [if_pos hsp] at hscol
    have hsp0 : 0 < listMax LF - listMin LF := lt_trans (by norm_num) hsp
    refine ⟨?_, fun _ => hscoreperm.trans (by rw [← hscol]), fun hle => absurd hsp (not_lt.mpr hle)⟩
    intro r hr
    have hmem : r.score ∈ SCORES :=
      hscoreperm.mem_iff.mp (List.mem_map_of_mem Row.score hr)
    rw [hscol] at hmem
    obtain ⟨v, hv, hveq⟩ := List.mem_map.mp hmem
    have h1 : listMin LF ≤ v := listMin_le hv
    have h2 : v ≤ listMax LF := le_listMax hv
    rw [← hveq]
    constructor
    · have hq1 : (v - listMin LF) / (listMax LF - listMin LF) ≤ 1 :=
        (div_le_one hsp0).mpr (by linarith)
      linarith
    · have hq0 : 0 ≤ (v - listMin LF) / (listMax LF - listMin LF) :=
        div_nonneg (by linarith) (le_of_lt hsp0)
      linarith
  · rw [if_neg hsp] at hscol
    refine ⟨?_, fun h => absurd h hsp, fun _ => ?_⟩
    · intro r hr
      have hmem : r.score ∈ SCORES :=
        hscoreperm.mem_iff.mp (List.mem_map_of_mem Row.score hr)
      rw [hscol] at hmem
      obtain ⟨v, _, hveq⟩ := List.mem_map.mp hmem
      rw [← hveq]
      norm_num
    · intro r hr
      have hmem : r.score ∈ SCORES :=
        hscoreperm.mem_iff.mp (List.mem_map_of_mem Row.score hr)
      rw [hscol] at hmem
      obtain ⟨v, _, hveq⟩ := List.mem_map.mp hmem
      exact hveq.symm

/-- Witness for the amended C2 at the `Etie` trip. -/
theorem C2_witness :
    ∃ r ∈ (computeCore Etie ratOracles ("A") ("B") 8 ("내선") none
        (get_alpha Etie.params 8)).rows, 45 ≤ r.score ∧ r.score ≤ 50 := by
  obtain ⟨r, hr, hsc⟩ := List.mem_map.mp mem45_Etie
  exact ⟨r, hr,
    (C2_tie_band Etie ratOracles ("A") ("B") 8 ("내선") none (get_alpha Etie.params 8)
      (fun r1 h1 r2 h2 => by
        rw [raws_zero_Etie r1 h1, raws_zero_Etie r2 h2])).1 r hr⟩

theorem round2_hundredths (k : ℤ) : round2 ((k : ℚ) / 100) = (k : ℚ) / 100 := by
  unfold round2 roundTo
  rw [show ((k : ℚ) / 100 * (10 : ℚ) ^ 2 + 1/2) = (k : ℚ) + 1/2 by ring]
  rw [Int.floor_int_add]
  norm_num


/-- C6, counterexample.  With `alpha_map['morning_rush'] = 0.001` the
interpolated multiplier at hour 8 is rounded to two decimals and comes
out `0.0`, not the exact anchor amplitude. -/
theorem C6_counterexample :
    get_alpha paramsTiny 8 = 0 ∧
    (paramsTiny.alpha_map.lookup ("morning_rush")).getD (14/10) = 1/1000 ∧
    get_alpha paramsTiny 8 ≠ (paramsTiny.alpha_map.lookup ("morning_rush")).getD (14/10) := by
  have h8 : get_alpha paramsTiny 8 = 0 := by
    unfold get_alpha anchorsOf
    rw [show pymod 8 24 = 8 from by decide]
    norm_num [interpAnchors, paramsTiny, List.lookup, round2, roundTo]
  have hl : (paramsTiny.alpha_map.lookup ("morning_rush")).getD (14/10) = 1/1000 := by
    norm_num [paramsTiny, List.lookup]
  refine ⟨h8, hl, ?_⟩
  rw [h8, hl]
  norm_num

/-- C6 amended.  For every calibration snapshot and every hour,
`alpha(h) = alpha(h + 24)` (modular correctness) and `alpha(8)` equals
`alpha_map['morning_rush']` rounded to two decimals; consequently the
anchor equality is exact precisely on snapshots whose amplitude is an
integer multiple of `0.01` (the default `1.4` included). -/
theorem C6_alpha_periodic_anchor (p : SeatScoreParams) (h : ℤ) :
    get_alpha p (h + 24) = get_alpha p h ∧
    get_alpha p 8 = round2 ((p.alpha_map.lookup ("morning_rush")).getD (14/10)) ∧
    (∀ k : ℤ, (p.alpha_map.lookup ("morning_rush")).getD (14/10) = (k : ℚ) / 100 →
      get_alpha p 8 = (p.alpha_map.lookup ("morning_rush")).getD (14/10)) := by
  have hmod : pymod (h + 24) 24 = pymod h 24 := by
    unfold pymod
    rw [Int.fmod_eq_emod _ (by norm_num), Int.fmod_eq_emod _ (by norm_num)]
    omega
  have hanchor : get_alpha p 8 = round2 ((p.alpha_map.lookup ("morning_rush")).getD (14/10)) := by
    unfold get_alpha anchorsOf
    rw [show pymod 8 24 = 8 from by decide]
    norm_num [interpAnchors]
  refine ⟨?_, hanchor, fun k hk => ?_⟩
  · unfold get_alpha
    rw [hmod]
  · rw [hanchor, hk, round2_hundredths]

/-- Witness for C6 at the default snapshot. -/
theorem C6_witness :
    (defaultParams.alpha_map.lookup ("morning_rush")).getD (14/10) = ((140 : ℤ) : ℚ) / 100 ∧
    get_alpha defaultParams (3 + 24) = get_alpha defaultParams 3 ∧
    get_alpha defaultParams 8 = (defaultParams.alpha_map.lookup ("morning_rush")).getD (14/10) :=
  have hk : (defaultParams.alpha_map.lookup ("morning_rush")).getD (14/10)
      = ((140 : ℤ) : ℚ) / 100 := by
    norm_num [defaultParams, List.lookup]
  ⟨hk,
    (C6_alpha_periodic_anchor defaultParams 3).1,
    (C6_alpha_periodic_anchor defaultParams 3).2.2 140 hk⟩

/-! ### C5: positivity and engine-parameter invariance -/

theorem travel_time_dist_pos (e : Engine) (a b : String) :
    0 < travel_time_dist e a b := by
  unfold travel_time_dist
  repeat' split
  all_goals first | positivity | norm_num

theorem get_travel_time_pos (e : Engine) (a b dir : String) :
    0 < get_travel_time e a b dir := by
  unfold get_travel_time
  repeat' split
  all_goals try dsimp only
  all_goals first
    | exact travel_time_dist_pos _ _ _
    | exact lt_of_lt_of_le (by norm_num) (le_max_right _ _)

theorem train_scale_pos (e : Engine) (st : String) (hour : ℤ) (dow : Option String) :
    0 < get_train_congestion_scale e st hour dow := by
  unfold get_train_congestion_scale
  repeat' split
  all_goals first
    | norm_num
    | exact lt_of_lt_of_le (by norm_num) (le_max_left _ _)

theorem option_getD_zero_nonneg {o : Option ℚ} (h : ∀ v, o = some v → 0 ≤ v) :
    0 ≤ o.getD 0 := by
  cases o with
  | none => simp
  | some v => simpa using h v rfl

theorem lookup_getD_zero_nonneg {α : Type} [BEq α] [LawfulBEq α]
    (cache : List (α × ℚ)) (key : α) (h : ∀ kv ∈ cache, 0 ≤ kv.2) :
    0 ≤ (cache.lookup key).getD 0 :=
  option_getD_zero_nonneg (fun v hv => by simpa using h _ (lookup_mem _ _ _ hv))

theorem facility_score_nonneg (e : Engine) (st : String) (c : ℕ) (dir : String)
    (h : ∀ kv ∈ e.facility_cache, 0 ≤ kv.2) :
    0 ≤ get_facility_score e st c dir := by
  unfold get_facility_score
  dsimp only
  split <;>
  · split
    · norm_num [TOTAL_CARS]
    · rename_i htot
      rw [not_le] at htot
      exact div_nonneg (lookup_getD_zero_nonneg _ _ h) htot.le

theorem boarding_penalty_nonneg (e : Engine) (c : ℕ) (b : String) (hour : ℤ)
    (dir : String) (dow : Option String) (hnn : CacheNonneg e) :
    0 ≤ get_boarding_penalty e c b hour dir dow := by
  unfold get_boarding_penalty
  dsimp only
  refine mul_nonneg ?_ (train_scale_pos e b hour dow).le
  split
  · rename_i v hv
    split at hv
    · split at hv
      · rename_i congestion hcong
        split at hv
        · split at hv
          · rename_i htot
            injection hv with hv
            rw [← hv]
            exact div_nonneg (getD_nonneg (hnn.1 _ (lookup_mem _ _ _ hcong))) htot.le
          · exact absurd hv (by simp)
        · exact absurd hv (by simp)
      · exact absurd hv (by simp)
    · exact absurd hv (by simp)
  · exact facility_score_nonneg e b c dir hnn.2

theorem raw_scores_params (e : Engine) (p : SeatScoreParams) (o : Oracles)
    (b d : String) (hour : ℤ) (dir : String) (dow : Option String) (alpha : ℚ) :
    raw_scores { e with params := p } o b d hour dir dow alpha
      = (List.range TOTAL_CARS).map (fun i =>
          (car_walk_state e o dir hour dow alpha
              (effLoadFactors o p.gamma (core_lf_raw (core_ctxs e d dir hour dow
                (get_intermediate_stations e b d dir))))
              (core_ctxs e d dir hour dow (get_intermediate_stations e b d dir))
              (i + 1)).benefit
            + p.delta * max 0 (1 - (effLoadFactors o p.gamma (core_lf_raw
                (core_ctxs e d dir hour dow (get_intermediate_stations e b d dir)))).getD i 0)
              * get_travel_time e b d dir
            - p.beta * get_boarding_penalty e (i + 1) b hour dir dow
              * get_travel_time e b d dir) := by
  simp only [raw_scores, core_cars, List.map_map]
  rfl

theorem computeCore_raw_perm (e : Engine) (o : Oracles) (b d : String) (hour : ℤ)
    (dir : String) (dow : Option String) (alpha : ℚ) :
    ((computeCore e o b d hour dir dow alpha).rows.map Row.score_raw).Perm
      (raw_scores e o b d hour dir dow alpha) := by
  have hlf : (core_lf_raw (core_ctxs e d dir hour dow
      (get_intermediate_stations e b d dir))).length = TOTAL_CARS :=
    core_lf_raw_length _ (core_ctxs_loadRatios_length e d dir hour dow _)
  have hcars := core_cars_length e o b dir hour dow alpha
    (core_ctxs e d dir hour dow (get_intermediate_stations e b d dir))
    (effLoadFactors o e.params.gamma (core_lf_raw (core_ctxs e d dir hour dow
      (get_intermediate_stations e b d dir))))
    (get_travel_time e b d dir)
  simp only [computeCore, raw_scores]
  exact core_rows_map_raw_perm _ _ _ _ (by
    rw [hcars]
    exact (scoreColumn_length o _ _ (by rw [List.length_map, hcars]) hlf).symm)

theorem mkCtx_params (e : Engine) (p : SeatScoreParams) (d dir : String)
    (hour : ℤ) (dow : Option String) (s : String) :
    mkCtx { e with params := p } d dir hour dow s = mkCtx e d dir hour dow s := rfl

theorem get_travel_time_params (e : Engine) (p : SeatScoreParams) (a b dir : String) :
    get_travel_time { e with params := p } a b dir = get_travel_time e a b dir := rfl

/-! ### C5: the concrete `Ebeta` trips -/

theorem alpha_Ebeta : get_alpha Ebeta.params 8 = 7/5 := by
  unfold get_alpha anchorsOf
  rw [show pymod 8 24 = 8 from by decide]
  norm_num [interpAnchors, Ebeta, List.lookup, round2, roundTo]

theorem alpha_Ebeta1 : get_alpha Ebeta1.params 8 = 7/5 := by
  unfold get_alpha anchorsOf
  rw [show pymod 8 24 = 8 from by decide]
  norm_num [interpAnchors, Ebeta1, Ebeta, List.lookup, round2, roundTo]

theorem mkCtx_Ebeta : mkCtx Ebeta ("B") ("내선") 8 none ("B") = ctxBeta := by
  norm_num [mkCtx, ctxBeta, Ebeta, get_alighting_volume, get_dow_factor, get_travel_time,
    travel_time_dist, get_sitting_fraction, get_train_congestion_scale,
    get_per_station_competitors, resolve_sk_key, weekday_codes, List.lookup,
    listIndex, isInnerDir, strIn, EMPIRICAL_CAR_DIST, SEATS_PER_CAR, MAX_CAPACITY,
    TOTAL_CARS, List.range, List.range.loop, List.replicate, max_def, min_def, abs]
  try simp
  try norm_num

theorem mkCtx_Ebeta1 : mkCtx Ebeta1 ("B") ("내선") 8 none ("B") = ctxBeta := by
  rw [show Ebeta1 = { Ebeta with params := { Ebeta.params with beta := 1 } } from rfl,
    mkCtx_params, mkCtx_Ebeta]

theorem ctxs_Ebeta : core_ctxs Ebeta ("B") ("내선") 8 none ["B"] = [(("B"), ctxBeta)] := by
  simp [core_ctxs, mkCtx_Ebeta]

theorem ctxs_Ebeta1 : core_ctxs Ebeta1 ("B") ("내선") 8 none ["B"] = [(("B"), ctxBeta)] := by
  simp [core_ctxs, mkCtx_Ebeta1]

theorem lf_Ebeta : core_lf_raw [(("B"), ctxBeta)] = List.replicate 10 1 := by
  norm_num [core_lf_raw, ctxBeta, TOTAL_CARS, List.replicate, List.zipWith]
  try simp
  try norm_num

theorem eff_Ebeta : effLoadFactors ratOracles 1 (List.replicate 10 1)
    = List.replicate 10 1 := by
  norm_num [effLoadFactors, ratOracles, TOTAL_CARS, List.replicate, max_def]
  try simp
  try norm_num

theorem trip_Ebeta : get_travel_time Ebeta ("A") ("B") ("내선") = 11/10 := by
  norm_num [get_travel_time, travel_time_dist, Ebeta, listIndex, max_def, min_def, abs]
  try simp
  try norm_num

theorem trip_Ebeta1 : get_travel_time Ebeta1 ("A") ("B") ("내선") = 11/10 := by
  rw [show Ebeta1 = { Ebeta with params := { Ebeta.params with beta := 1 } } from rfl,
    get_travel_time_params, trip_Ebeta]

theorem carraw_Ebeta (c : ℕ) :
    (carCompute Ebeta ratOracles ("A") ("내선") 8 none (7/5) [(("B"), ctxBeta)]
      ([1, 1, 1, 1, 1, 1, 1, 1, 1, 1] : List ℚ) (11/10) c).raw = 0 := by
  norm_num [carCompute, car_walk_state, walkStep, ctxBeta, Ebeta, ratOracles, clip,
    List.replicate, max_def, min_def]
  try simp
  try norm_num

theorem rawlist_Ebeta :
    (core_cars Ebeta ratOracles ("A") ("내선") 8 none (7/5) [(("B"), ctxBeta)]
      (List.replicate 10 1) (11/10)).map (fun c => c.2.raw) = List.replicate 10 0 := by
  simp [core_cars, TOTAL_CARS, List.range, List.range.loop, carraw_Ebeta, List.replicate]

theorem scores_Ebeta :
    scoreColumn ratOracles (List.replicate 10 0) (List.replicate 10 1)
      = List.replicate 10 50 := by
  norm_num [scoreColumn, listMax, listMin, List.replicate, ratOracles,
    TOTAL_CARS, max_def, min_def]
  try simp
  try norm_num

theorem carraw_Ebeta1 (c : ℕ) :
    (carCompute Ebeta1 ratOracles ("A") ("내선") 8 none (7/5) [(("B"), ctxBeta)]
      ([1, 1, 1, 1, 1, 1, 1, 1, 1, 1] : List ℚ) (11/10) c).raw
      = -(11/120) * ([3, 1, 1, 1, 1, 1, 1, 1, 1, 1] : List ℚ).getD (c - 1) 0 := by
  norm_num [carCompute, car_walk_state, walkStep, ctxBeta, Ebeta1, Ebeta, ratOracles,
    clip, get_boarding_penalty, get_facility_score, get_train_congestion_scale,
    resolve_train_congestion, resolve_sk_key, weekday_codes, List.lookup,
    List.replicate, TOTAL_CARS, max_def, min_def,
    show ((("A", (8 : ℤ), "MON")) == (("B", (8 : ℤ), "MON"))) = false from by decide,
    show ((("A", (8 : ℤ), "MON")) == (("A", (8 : ℤ), "MON"))) = true from by decide]
  try simp [List.getD]
  try norm_num
  try ring

theorem rawlist_Ebeta1 :
    (core_cars Ebeta1 ratOracles ("A") ("내선") 8 none (7/5) [(("B"), ctxBeta)]
      (List.replicate 10 1) (11/10)).map (fun c => c.2.raw)
      = [-(11/40), -(11/120), -(11/120), -(11/120), -(11/120), -(11/120), -(11/120),
         -(11/120), -(11/120), -(11/120)] := by
  norm_num [core_cars, TOTAL_CARS, List.range, List.range.loop, carraw_Ebeta1,
    List.replicate, List.getD]
  try simp
  try norm_num

theorem scores_Ebeta1 :
    scoreColumn ratOracles
      [-(11/40), -(11/120), -(11/120), -(11/120), -(11/120), -(11/120), -(11/120),
       -(11/120), -(11/120), -(11/120)] (List.replicate 10 1)
      = [215/7, 485/7, 485/7, 485/7, 485/7, 485/7, 485/7, 485/7, 485/7, 485/7] := by
  norm_num [scoreColumn, listMax, listMin, ratOracles, clip, List.replicate,
    max_def, min_def]
  try simp
  try norm_num

theorem carsfst_Ebeta1 :
    (core_cars Ebeta1 ratOracles ("A") ("내선") 8 none (7/5) [(("B"), ctxBeta)]
      (List.replicate 10 1) (11/10)).map Prod.fst
      = [1, 2, 3, 4, 5, 6, 7, 8, 9, 10] := by
  simp [core_cars, TOTAL_CARS, List.range, List.range.loop]

theorem rows_Ebeta :
    (computeCore Ebeta ratOracles ("A") ("B") 8 ("내선") none
        (get_alpha Ebeta.params 8)).rows
      = core_rows (core_cars Ebeta ratOracles ("A") ("내선") 8 none (7/5)
          [(("B"), ctxBeta)] (List.replicate 10 1) (11/10))
          (List.replicate 10 50) (List.replicate 10 1) (List.replicate 10 1) := by
  simp only [computeCore, alpha_Ebeta,
    show get_intermediate_stations Ebeta ("A") ("B") ("내선") = ["B"] from by decide,
    ctxs_Ebeta, lf_Ebeta, show Ebeta.params.gamma = 1 from rfl, eff_Ebeta, trip_Ebeta,
    rawlist_Ebeta, scores_Ebeta]

theorem rows_Ebeta1 :
    (computeCore Ebeta1 ratOracles ("A") ("B") 8 ("내선") none
        (get_alpha Ebeta1.params 8)).rows
      = core_rows (core_cars Ebeta1 ratOracles ("A") ("내선") 8 none (7/5)
          [(("B"), ctxBeta)] (List.replicate 10 1) (11/10))
          [215/7, 485/7, 485/7, 485/7, 485/7, 485/7, 485/7, 485/7, 485/7, 485/7]
          (List.replicate 10 1) (List.replicate 10 1) := by
  simp only [computeCore, alpha_Ebeta1,
    show get_intermediate_stations Ebeta1 ("A") ("B") ("내선") = ["B"] from by decide,
    ctxs_Ebeta1, lf_Ebeta, show Ebeta1.params.gamma = 1 from rfl, eff_Ebeta, trip_Ebeta1,
    rawlist_Ebeta1, scores_Ebeta1]

theorem scores50_Ebeta :
    ∀ r ∈ (computeCore Ebeta ratOracles ("A") ("B") 8 ("내선") none
        (get_alpha Ebeta.params 8)).rows, r.score = 50 := by
  intro r hr
  rw [rows_Ebeta] at hr
  have h := core_rows_map_score_perm
    (core_cars Ebeta ratOracles ("A") ("내선") 8 none (7/5) [(("B"), ctxBeta)]
      (List.replicate 10 1) (11/10))
    (List.replicate 10 50) (List.replicate 10 1) (List.replicate 10 1)
    (by rw [core_cars_length, List.length_replicate]; norm_num [TOTAL_CARS])
  exact List.eq_of_mem_replicate
    (h.mem_iff.mp (List.mem_map_of_mem Row.score hr))

theorem pair_Ebeta1 :
    ((2 : ℕ), (485/7 : ℚ)) ∈ ((computeCore Ebeta1 ratOracles ("A") ("B") 8 ("내선") none
        (get_alpha Ebeta1.params 8)).rows).map (fun r => (r.car, r.score)) := by
  rw [rows_Ebeta1]
  have h := core_rows_map_pair_perm
    (core_cars Ebeta1 ratOracles ("A") ("내선") 8 none (7/5) [(("B"), ctxBeta)]
      (List.replicate 10 1) (11/10))
    [215/7, 485/7, 485/7, 485/7, 485/7, 485/7, 485/7, 485/7, 485/7, 485/7]
    (List.replicate 10 1) (List.replicate 10 1)
    (by rw [core_cars_length]; rfl)
  rw [carsfst_Ebeta1] at h
  refine h.mem_iff.mpr ?_
  simp [List.zip, List.zipWith]

/-- C5, counterexample.  Raising `beta` from `0` (engine `Ebeta`) to `1`
(engine `Ebeta1`) while holding the trip and every other parameter and
cache fixed RAISES car 2's final normalized score from `50` to `485/7 ≈
69.3`: with `beta = 0` all ten raw scores tie (every score is `50`),
while with `beta = 1` car 1's larger boarding penalty spreads the raw
scores and the sigmoid normalization maps the other nine cars to the top
of the band.  The claimed monotonicity holds for raw scores but not for
the final normalized scores. -/
theorem C5_counterexample :
    Ebeta1 = { Ebeta with params := { Ebeta.params with beta := 1 } } ∧
    Ebeta.params.beta = 0 ∧
    (∃ ra, computeSeatscoreE Ebeta ratOracles ("A") ("B") 8 ("내선") none 0
        = Except.ok (ra, 0) ∧ ∀ r ∈ ra.rows, r.score = 50) ∧
    (∃ rb, computeSeatscoreE Ebeta1 ratOracles ("A") ("B") 8 ("내선") none 0
        = Except.ok (rb, 0) ∧
        ((2 : ℕ), (485/7 : ℚ)) ∈ rb.rows.map (fun r => (r.car, r.score))) ∧
    ¬((485/7 : ℚ) ≤ 50) :=
  ⟨rfl, rfl, ⟨_, rfl, scores50_Ebeta⟩, ⟨_, rfl, pair_Ebeta1⟩, by norm_num⟩

/-- C5 amended.  For every fixed trip and fixed data state with
nonnegative congestion and facility caches, increasing `beta` while
holding every other parameter and input fixed does not increase any
car's RAW score (the `score_raw` column, of which the rows carry a
permutation); the final normalized score need not be monotone. -/
theorem C5_beta_raw_antitone (e : Engine) (o : Oracles) (b d : String)
    (hour : ℤ) (dir : String) (dow : Option String) (alpha β1 β2 : ℚ)
    (hb : β1 ≤ β2) (hnn : CacheNonneg e) :
    (∀ i : ℕ,
      (raw_scores { e with params := { e.params with beta := β2 } }
          o b d hour dir dow alpha).getD i 0
        ≤ (raw_scores { e with params := { e.params with beta := β1 } }
          o b d hour dir dow alpha).getD i 0) ∧
    ∀ β : ℚ,
      ((computeCore { e with params := { e.params with beta := β } }
          o b d hour dir dow alpha).rows.map Row.score_raw).Perm
        (raw_scores { e with params := { e.params with beta := β } }
          o b d hour dir dow alpha) := by
  constructor
  · intro i
    rw [raw_scores_params, raw_scores_params]
    rcases lt_or_le i TOTAL_CARS with hi | hi
    · rw [List.getD_eq_getElem _ _ (by simpa using hi),
        List.getD_eq_getElem _ _ (by simpa using hi)]
      simp only [List.getElem_map, List.getElem_range]
      have hP : 0 ≤ get_boarding_penalty e (i + 1) b hour dir dow :=
        boarding_penalty_nonneg e (i + 1) b hour dir dow hnn
      have hT : 0 ≤ get_travel_time e b d dir := (get_travel_time_pos e b d dir).le
      have hm := mul_le_mul_of_nonneg_right
        (mul_le_mul_of_nonneg_right hb hP) hT
      linarith
    · rw [List.getD_eq_default _ _ (by simpa using hi),
        List.getD_eq_default _ _ (by simpa using hi)]
  · intro β
    exact computeCore_raw_perm _ _ _ _ _ _ _ _

/-- Witness for C5 on the `Ebeta` engine with `beta` raised from `0`
to `1`. -/
theorem C5_witness :
    ((0 : ℚ) ≤ 1 ∧ CacheNonneg Ebeta) ∧
    (raw_scores { Ebeta with params := { Ebeta.params with beta := (1 : ℚ) } }
        ratOracles ("A") ("B") 8 ("내선") none (7/5)).getD 0 0
      ≤ (raw_scores { Ebeta with params := { Ebeta.params with beta := (0 : ℚ) } }
        ratOracles ("A") ("B") 8 ("내선") none (7/5)).getD 0 0 := by
  have hnn : CacheNonneg Ebeta := by
    constructor
    · intro kv hkv x hx
      simp only [Ebeta, List.mem_cons, List.not_mem_nil, or_false] at hkv
      rcases hkv with rfl | rfl <;>
        simp only [List.mem_cons, List.not_mem_nil, or_false] at hx <;>
        rcases hx with rfl | rfl | rfl | rfl | rfl | rfl | rfl | rfl | rfl | rfl <;>
        norm_num
    · intro kv hkv
      simp [Ebeta] at hkv
  exact ⟨⟨by norm_num, hnn⟩,
    (C5_beta_raw_antitone Ebeta ratOracles ("A") ("B") 8 ("내선") none (7/5) 0 1
      (by norm_num) hnn).1 0⟩

/-- C4, counterexample.  A boarding station that cannot be located in
the station table does NOT make `compute_seatscore` raise: the
intermediate-station list silently degrades to `[]` and the request
completes with the full ten-row result.  The claimed "raises if and only
if boarding/destination cannot be located (or intermediates are empty
for a non-trivial trip)" is wrong in both directions of the "if". -/
theorem C4_counterexample :
    find_idx Ew.station_order ("Z") = none ∧
    get_intermediate_stations Ew ("Z") ("B") ("내선") = [] ∧
    ∃ res, computeSeatscoreE Ew ratOracles ("Z") ("B") 8 ("내선") none 0
        = Except.ok (res, 0) ∧ res.rows.length = TOTAL_CARS :=
  ⟨by decide, by decide,
    ⟨_, rfl, (computeCore_rows_spec Ew ratOracles ("Z") ("B") 8 ("내선") none
      (get_alpha Ew.params 8)).1⟩⟩

/-- C4 amended.  `compute_seatscore` propagates an exception if and only
if the injected weather service raises on its call: with no weather
service it always returns a result (for every trip, locatable or not),
with a weather service it fails exactly when that call fails, and
otherwise returns a result while consuming one weather call. -/
theorem C4_raises_iff_weather (e : Engine) (o : Oracles) (b d : String)
    (hour : ℤ) (dir : String) (dow : Option String) (k : ℕ) :
    (e.weather_service = none →
      ∃ res, computeSeatscoreE e o b d hour dir dow k = Except.ok (res, k)) ∧
    (∀ w, e.weather_service = some w →
      ∀ u, w k = Except.error u →
        computeSeatscoreE e o b d hour dir dow k = Except.error u) ∧
    (∀ w, e.weather_service = some w →
      ∀ f, w k = Except.ok f →
        ∃ res, computeSeatscoreE e o b d hour dir dow k = Except.ok (res, k + 1)) := by
  refine ⟨fun hw => ?_, fun w hw u hu => ?_, fun w hw f hf => ?_⟩
  · exact ⟨computeCore e o b d hour dir dow (get_alpha e.params hour),
      by simp [computeSeatscoreE, hw]⟩
  · simp [computeSeatscoreE, hw, hu]
  · exact ⟨computeCore e o b d hour dir dow (round2 (get_alpha e.params hour * f)),
      by simp [computeSeatscoreE, hw, hf]⟩

/-- Witness for C4 on the weatherless engine `Ew`. -/
theorem C4_witness :
    Ew.weather_service = none ∧
    ∃ res, computeSeatscoreE Ew ratOracles ("A") ("B") 8 ("내선") none 0
      = Except.ok (res, 0) :=
  ⟨rfl, (C4_raises_iff_weather Ew ratOracles ("A") ("B") 8 ("내선") none 0).1 rfl⟩

/-- C9, counterexample.  With an injected weather service, one
`recommend` request invokes the weather callable TWICE (once in
`recommend` and once more inside `compute_seatscore`), not at most once;
and a raised weather error propagates out of the request instead of
degrading to the neutral factor `1.0` (the error-swallowing lives inside
the `WeatherService` class, not in the façade's calls to an arbitrary
injected callable). -/
theorem C9_counterexample :
    (∃ r, recommendE E9ok ratOracles ("A") ("B") 8 ("내선") none
        = Except.ok (r, 2)) ∧
    ¬(2 ≤ 1) ∧
    recommendE E9err ratOracles ("A") ("B") 8 ("내선") none
      = Except.error () :=
  ⟨⟨_, rfl⟩, by norm_num, rfl⟩

/-- C9 amended.  With an injected weather service `w`, a `recommend`
request calls `w` exactly twice on success (call indices 0 and 1,
returning the total call count 2): an error from either call propagates
to the caller unchanged. -/
theorem C9_weather_calls (e : Engine) (o : Oracles) (b d : String) (hour : ℤ)
    (dir : String) (dow : Option String) (w : ℕ → Except Unit ℚ)
    (hw : e.weather_service = some w) :
    (∀ u, w 0 = Except.error u →
      recommendE e o b d hour dir dow = Except.error u) ∧
    (∀ f, w 0 = Except.ok f → ∀ u, w 1 = Except.error u →
      recommendE e o b d hour dir dow = Except.error u) ∧
    (∀ f g, w 0 = Except.ok f → w 1 = Except.ok g →
      ∃ r, recommendE e o b d hour dir dow = Except.ok (r, 2)) := by
  refine ⟨fun u hu => ?_, fun f hf u hu => ?_, fun f g hf hg => ?_⟩
  · simp [recommendE, hw, hu, bind, Except.bind, pure, Except.pure]
  · simp [recommendE, computeSeatscoreE, hw, hf, hu, bind, Except.bind,
      pure, Except.pure]
  · simp only [recommendE, computeSeatscoreE, hw, hf, hg, bind, Except.bind,
      pure, Except.pure]
    exact ⟨_, rfl⟩

/-- Witness for C9 on the always-succeeding weather engine `E9ok`. -/
theorem C9_witness :
    E9ok.weather_service = some (fun _ => Except.ok 1) ∧
    ∃ r, recommendE E9ok ratOracles ("A") ("B") 8 ("내선") none
      = Except.ok (r, 2) :=
  ⟨rfl, (C9_weather_calls E9ok ratOracles ("A") ("B") 8 ("내선") none
    (fun _ => Except.ok 1) rfl).2.2 1 1 rfl rfl⟩

/-- C3, counterexample.  On the four-station loop, the inner-direction
trip `A → C` yields the intermediate list `["B", "C"]`: the slice
`stations[b_idx+1 : d_idx+1]` INCLUDES the destination, contradicting
"excludes both boarding and destination"; the equal-endpoint trip
`A → A` yields the full loop `["B", "C", "D", "A"]` (length 4), not the
claimed empty list; and the outer direction has the same two flaws:
`C → A` yields `["B", "A"]` (destination included) and the
equal-endpoint outer trip yields the reversed full loop. -/
theorem C3_counterexample :
    (get_intermediate_stations E3 ("A") ("C") ("내선") = ["B", "C"] ∧
     ("C") ∈ get_intermediate_stations E3 ("A") ("C") ("내선") ∧
     get_intermediate_stations E3 ("A") ("A") ("내선") = ["B", "C", "D", "A"] ∧
     get_intermediate_stations E3 ("A") ("A") ("내선") ≠ []) ∧
    (get_intermediate_stations E3 ("C") ("A") ("외선") = ["B", "A"] ∧
     ("A") ∈ get_intermediate_stations E3 ("C") ("A") ("외선") ∧
     get_intermediate_stations E3 ("A") ("A") ("외선") = ["D", "C", "B", "A"] ∧
     get_intermediate_stations E3 ("A") ("A") ("외선") ≠ []) := by
  decide

/-- C3 amended.  For locatable endpoints, in either traversal direction
the intermediate list is exactly the Python slice of the station table.
Inner direction with `b_idx < d_idx`: the stops at indices `b_idx + 1`
through `d_idx` inclusive — the destination is its last element and the
boarding index is excluded; inner wraparound (`d_idx ≤ b_idx`, the equal
case included): the tail from `b_idx + 1` followed by the head through
`d_idx`, of length `(n - b_idx - 1) + (d_idx + 1)`.  Outer direction
with `d_idx < b_idx`: the stops at indices `b_idx - 1` down to `d_idx`
(destination last, boarding excluded); outer wraparound
(`b_idx ≤ d_idx`, the equal case included): the head below `b_idx`
reversed followed by the tail from `d_idx` reversed, of length
`b_idx + (n - d_idx)`.  In particular every equal-endpoint trip yields
the full loop of length `n`, not the empty list. -/
theorem C3_slice_characterization (e : Engine) (b d dir : String) (bi di : ℕ)
    (hb : find_idx e.station_order b = some bi)
    (hd : find_idx e.station_order d = some di)
    (hbi : bi < e.station_order.length)
    (hdi : di < e.station_order.length) :
    (isInnerDir dir = true →
      (bi < di →
        (get_intermediate_stations e b d dir).length = di - bi ∧
        ∀ j, j < di - bi →
          (get_intermediate_stations e b d dir).getD j ""
            = e.station_order.getD (bi + 1 + j) "") ∧
      (¬ bi < di →
        (get_intermediate_stations e b d dir).length
            = (e.station_order.length - (bi + 1)) + (di + 1) ∧
        (∀ j, j < e.station_order.length - (bi + 1) →
          (get_intermediate_stations e b d dir).getD j ""
            = e.station_order.getD (bi + 1 + j) "") ∧
        (∀ j, j < di + 1 →
          (get_intermediate_stations e b d dir).getD
              ((e.station_order.length - (bi + 1)) + j) ""
            = e.station_order.getD j ""))) ∧
    (isInnerDir dir = false →
      (di < bi →
        (get_intermediate_stations e b d dir).length = bi - di ∧
        ∀ j, j < bi - di →
          (get_intermediate_stations e b d dir).getD j ""
            = e.station_order.getD (bi - 1 - j) "") ∧
      (¬ di < bi →
        (get_intermediate_stations e b d dir).length
            = bi + (e.station_order.length - di) ∧
        (∀ j, j < bi →
          (get_intermediate_stations e b d dir).getD j ""
            = e.station_order.getD (bi - 1 - j) "") ∧
        (∀ j, j < e.station_order.length - di →
          (get_intermediate_stations e b d dir).getD (bi + j) ""
            = e.station_order.getD (e.station_order.length - 1 - j) ""))) := by
  have hne : e.station_order ≠ [] := by
    intro h
    rw [h] at hdi
    simp at hdi
  refine ⟨fun hdir => ?_, fun hdir => ?_⟩
  · have h0 : get_intermediate_stations e b d dir
        = if bi < di then (e.station_order.drop (bi + 1)).take (di - bi)
          else e.station_order.drop (bi + 1) ++ e.station_order.take (di + 1) := by
      unfold get_intermediate_stations
      dsimp only
      rw [if_neg hne, hb, hd]
      simp [hdir]
    refine ⟨fun hlt => ?_, fun hge => ?_⟩
    · rw [h0, if_pos hlt]
      constructor
      · simp only [List.length_take, List.length_drop]
        omega
      · intro j hj
        rw [List.getD_eq_getElem?_getD, List.getD_eq_getElem?_getD,
          List.getElem?_take, if_pos hj, List.getElem?_drop]
    · rw [h0, if_neg hge]
      refine ⟨?_, fun j hj => ?_, fun j hj => ?_⟩
      · simp only [List.length_append, List.length_take, List.length_drop]
        omega
      · rw [List.getD_eq_getElem?_getD, List.getD_eq_getElem?_getD,
          List.getElem?_append_left (by rw [List.length_drop]; exact hj),
          List.getElem?_drop]
      · rw [List.getD_eq_getElem?_getD, List.getD_eq_getElem?_getD,
          List.getElem?_append_right (by rw [List.length_drop]; exact Nat.le_add_right _ _),
          List.length_drop, Nat.add_sub_cancel_left, List.getElem?_take, if_pos hj]
  · have h0 : get_intermediate_stations e b d dir
        = if di < bi then ((e.station_order.drop di).take (bi - di)).reverse
          else (e.station_order.take bi).reverse ++ (e.station_order.drop di).reverse := by
      unfold get_intermediate_stations
      dsimp only
      rw [if_neg hne, hb, hd]
      simp [hdir]
    refine ⟨fun hlt => ?_, fun hge => ?_⟩
    · rw [h0, if_pos hlt]
      constructor
      · simp only [List.length_reverse, List.length_take, List.length_drop]
        omega
      · intro j hj
        rw [List.getD_eq_getElem?_getD, List.getD_eq_getElem?_getD,
          List.getElem?_reverse
            (by simp only [List.length_take, List.length_drop]; omega),
          List.length_take, List.length_drop,
          show (bi - di) ⊓ (e.station_order.length - di) - 1 - j = bi - di - 1 - j
            from by omega,
          List.getElem?_take, if_pos (by omega), List.getElem?_drop,
          show di + (bi - di - 1 - j) = bi - 1 - j from by omega]
    · rw [h0, if_neg hge]
      refine ⟨?_, fun j hj => ?_, fun j hj => ?_⟩
      · simp only [List.length_append, List.length_reverse, List.length_take,
          List.length_drop]
        omega
      · rw [List.getD_eq_getElem?_getD, List.getD_eq_getElem?_getD,
          List.getElem?_append_left
            (by simp only [List.length_reverse, List.length_take]; omega),
          List.getElem?_reverse (by simp only [List.length_take]; omega),
          List.length_take,
          show bi ⊓ e.station_order.length - 1 - j = bi - 1 - j from by omega,
          List.getElem?_take, if_pos (by omega)]
      · rw [List.getD_eq_getElem?_getD, List.getD_eq_getElem?_getD,
          List.getElem?_append_right
            (by simp only [List.length_reverse, List.length_take]; omega),
          List.length_reverse, List.length_take,
          show bi + j - bi ⊓ e.station_order.length = j from by omega,
          List.getElem?_reverse (by simp only [List.length_drop]; omega),
          List.length_drop, List.getElem?_drop,
          show di + (e.station_order.length - di - 1 - j) = e.station_order.length - 1 - j
            from by omega]

/-- Witness for C3 on the four-station loop: trip `A → C` inner
direction and trip `C → A` outer direction. -/
theorem C3_witness :
    (find_idx E3.station_order ("A") = some 0 ∧
     find_idx E3.station_order ("C") = some 2 ∧
     0 < E3.station_order.length ∧ 2 < E3.station_order.length) ∧
    ((get_intermediate_stations E3 ("A") ("C") ("내선")).length = 2 - 0 ∧
     ∀ j, j < 2 - 0 →
       (get_intermediate_stations E3 ("A") ("C") ("내선")).getD j ""
         = E3.station_order.getD (0 + 1 + j) "") ∧
    ((get_intermediate_stations E3 ("C") ("A") ("외선")).length = 2 - 0 ∧
     ∀ j, j < 2 - 0 →
       (get_intermediate_stations E3 ("C") ("A") ("외선")).getD j ""
         = E3.station_order.getD (2 - 1 - j) "") :=
  ⟨⟨by decide, by decide, by decide, by decide⟩,
    ((C3_slice_characterization E3 ("A") ("C") ("내선") 0 2
      (by decide) (by decide) (by decide) (by decide)).1 (by decide)).1 (by decide),
    ((C3_slice_characterization E3 ("C") ("A") ("외선") 2 0
      (by decide) (by decide) (by decide) (by decide)).2 (by decide)).1 (by decide)⟩

/-! ### C8: the nearest-rush-hour search -/

theorem rushLoop_spec (cache : List ((String × ℤ × String) × ℚ)) (st : String)
    (hour : ℤ) (dk : String) :
    ∀ (l : List ℤ) (acc : ℤ × Option ℤ),
      (∀ bh, acc.2 = some bh →
        (∃ v, cache.lookup (st, bh, dk) = some v ∧ v ≠ 0) ∧ acc.1 = |hour - bh|) →
      ((∀ bh, (rushLoop cache st hour dk l acc).2 = some bh →
        (∃ v, cache.lookup (st, bh, dk) = some v ∧ v ≠ 0) ∧
         (rushLoop cache st hour dk l acc).1 = |hour - bh| ∧
         (acc.2 = some bh ∨ bh ∈ l)) ∧
      (rushLoop cache st hour dk l acc).1 ≤ acc.1 ∧
      (∀ rh ∈ l, ∀ u, cache.lookup (st, rh, dk) = some u → u ≠ 0 →
        (rushLoop cache st hour dk l acc).1 ≤ |hour - rh|) ∧
      ((rushLoop cache st hour dk l acc).2 = none →
        acc.2 = none ∧
        ∀ rh ∈ l, ∀ u, cache.lookup (st, rh, dk) = some u → u ≠ 0 →
          acc.1 ≤ |hour - rh|)) := by
  intro l
  induction l with
  | nil =>
    intro acc hI
    refine ⟨fun bh h => ?_, le_refl _,
      fun rh hrh => absurd hrh (List.not_mem_nil rh),
      fun hn => ⟨hn, fun rh hrh => absurd hrh (List.not_mem_nil rh)⟩⟩
    obtain ⟨h1, h2⟩ := hI bh h
    exact ⟨h1, h2, Or.inl h⟩
  | cons rh rest ih =>
    intro acc hI
    have hstep : rushLoop cache st hour dk (rh :: rest) acc
        = rushLoop cache st hour dk rest
          (match cache.lookup (st, rh, dk) with
            | some v => if v ≠ 0 ∧ |hour - rh| < acc.1 then (|hour - rh|, some rh) else acc
            | none => acc) := rfl
    rcases hL : cache.lookup (st, rh, dk) with _ | v
    · have hacc' : rushLoop cache st hour dk (rh :: rest) acc
          = rushLoop cache st hour dk rest acc := by
        rw [hstep, hL]
      obtain ⟨ih1, ih2, ih3, ih4⟩ := ih acc hI
      rw [hacc']
      refine ⟨fun bh h => ?_, ih2, fun rh' hrh' u hu hune => ?_, fun hn => ?_⟩
      · obtain ⟨ha, hb, hc⟩ := ih1 bh h
        exact ⟨ha, hb, hc.imp id (List.mem_cons_of_mem rh)⟩
      · rcases List.mem_cons.mp hrh' with rfl | hmem
        · rw [hu] at hL
          exact absurd hL (by simp)
        · exact ih3 rh' hmem u hu hune
      · obtain ⟨h1, h2⟩ := ih4 hn
        refine ⟨h1, fun rh' hrh' u hu hune => ?_⟩
        rcases List.mem_cons.mp hrh' with rfl | hmem
        · rw [hu] at hL
          exact absurd hL (by simp)
        · exact h2 rh' hmem u hu hune
    · by_cases hcnd : v ≠ 0 ∧ |hour - rh| < acc.1
      · have hacc' : rushLoop cache st hour dk (rh :: rest) acc
            = rushLoop cache st hour dk rest (|hour - rh|, some rh) := by
          rw [hstep, hL]
          exact congrArg (rushLoop cache st hour dk rest) (if_pos hcnd)
        have hI' : ∀ bh, ((|hour - rh|, some rh) : ℤ × Option ℤ).2 = some bh →
            (∃ u, cache.lookup (st, bh, dk) = some u ∧ u ≠ 0) ∧
              ((|hour - rh|, some rh) : ℤ × Option ℤ).1 = |hour - bh| := by
          intro bh h
          simp only at h
          injection h with h
          subst h
          exact ⟨⟨v, hL, hcnd.1⟩, rfl⟩
        obtain ⟨ih1, ih2, ih3, ih4⟩ := ih (|hour - rh|, some rh) hI'
        rw [hacc']
        refine ⟨fun bh h => ?_, le_trans ih2 (le_of_lt hcnd.2),
          fun rh' hrh' u hu hune => ?_, fun hn => ?_⟩
        · obtain ⟨ha, hb, hc⟩ := ih1 bh h
          refine ⟨ha, hb, Or.inr ?_⟩
          rcases hc with h' | h'
          · simp only at h'
            injection h' with h'
            subst h'
            exact List.mem_cons_self rh rest
          · exact List.mem_cons_of_mem rh h'
        · rcases List.mem_cons.mp hrh' with rfl | hmem
          · exact ih2
          · exact ih3 rh' hmem u hu hune
        · obtain ⟨h1, h2⟩ := ih4 hn
          simp only at h1
          exact absurd h1 (by simp)
      · have hacc' : rushLoop cache st hour dk (rh :: rest) acc
            = rushLoop cache st hour dk rest acc := by
          rw [hstep, hL]
          exact congrArg (rushLoop cache st hour dk rest) (if_neg hcnd)
        obtain ⟨ih1, ih2, ih3, ih4⟩ := ih acc hI
        rw [hacc']
        push_neg at hcnd
        refine ⟨fun bh h => ?_, ih2, fun rh' hrh' u hu hune => ?_, fun hn => ?_⟩
        · obtain ⟨ha, hb, hc⟩ := ih1 bh h
          exact ⟨ha, hb, hc.imp id (List.mem_cons_of_mem rh)⟩
        · rcases List.mem_cons.mp hrh' with rfl | hmem
          · rw [hL] at hu
            injection hu with hu
            subst hu
            exact le_trans ih2 (hcnd hune)
          · exact ih3 rh' hmem u hu hune
        · obtain ⟨h1, h2⟩ := ih4 hn
          refine ⟨h1, fun rh' hrh' u hu hune => ?_⟩
          rcases List.mem_cons.mp hrh' with rfl | hmem
          · rw [hL] at hu
            injection hu with hu
            subst hu
            exact hcnd hune
          · exact h2 rh' hmem u hu hune

theorem find_nearest_rush_spec (cache : List ((String × ℤ × String) × ℚ))
    (st : String) (hour : ℤ) (dk : String) (rh0 : ℤ) (v0 : ℚ)
    (hmem : rh0 ∈ rush_hours) (hl0 : cache.lookup (st, rh0, dk) = some v0)
    (hv0 : v0 ≠ 0) (hclose : |hour - rh0| < 999) :
    ∃ bh v, bh ∈ rush_hours ∧ cache.lookup (st, bh, dk) = some v ∧ v ≠ 0 ∧
      (∀ rh ∈ rush_hours, ∀ u, cache.lookup (st, rh, dk) = some u → u ≠ 0 →
        |hour - bh| ≤ |hour - rh|) ∧
      find_nearest_rush_data cache st hour dk
        = some (v, max (3/10) (1 - ((|hour - bh| : ℤ) : ℚ) * 12/100)) := by
  have hne : cache ≠ [] := by
    intro h
    rw [h] at hl0
    simp [List.lookup] at hl0
  have H := rushLoop_spec cache st hour dk rush_hours (999, none)
    (by intro bh h; simp at h)
  unfold find_nearest_rush_data
  rw [if_neg hne]
  rcases hres : rushLoop cache st hour dk rush_hours (999, none) with ⟨bd, _ | bh⟩
  · exfalso
    have h4 := H.2.2.2
    rw [hres] at h4
    have h5 := (h4 rfl).2 rh0 hmem v0 hl0 hv0
    simp only at h5
    omega
  · have h1 := H.1 bh (by rw [hres])
    obtain ⟨⟨v, hv, hvne⟩, hbd, hor⟩ := h1
    rw [hres] at hbd
    simp only at hbd
    refine ⟨bh, v, ?_, hv, hvne, fun rh hrh u hu hune => ?_, ?_⟩
    · rcases hor with h | h
      · simp at h
      · exact h
    · have h3 := H.2.2.1 rh hrh u hu hune
      rw [hres] at h3
      simp only at h3
      rw [hbd] at h3
      exact h3
    · dsimp only
      rw [hv, hbd]

/-- C8.  The train-level congestion scale is resolved in strict priority
order: an exact cache hit for `(station, hour, normalized day key)`
(normalized by the 50% baseline and clamped); otherwise the nearest
rush-hour cache entry holding a nonzero value within the `999` sentinel
(rush hours 7, 8, 9, 17, 18, 19, nearest by `|hour - rush|` with ties
broken toward the earlier hour) blended toward the 50% baseline as
`decay*value + (1-decay)*50` with `decay = max(0.3, 1 - 0.12*dist)`;
otherwise the neutral scale `1.0`. -/
theorem C8_train_scale_priority (e : Engine) (st : String) (hour : ℤ)
    (dow : Option String) :
    (e.train_congestion_cache = [] →
      get_train_congestion_scale e st hour dow = 1) ∧
    (∀ v, e.train_congestion_cache.lookup
        (st, hour, (resolve_sk_key st hour dow).2.2) = some v →
      get_train_congestion_scale e st hour dow = max (1/2) (min 2 (v / 50))) ∧
    (e.train_congestion_cache.lookup
        (st, hour, (resolve_sk_key st hour dow).2.2) = none →
      ∀ rh0 ∈ rush_hours, ∀ v0, e.train_congestion_cache.lookup
          (st, rh0, (resolve_sk_key st hour dow).2.2) = some v0 → v0 ≠ 0 →
        |hour - rh0| < 999 →
      ∃ bh v, bh ∈ rush_hours ∧
        e.train_congestion_cache.lookup
          (st, bh, (resolve_sk_key st hour dow).2.2) = some v ∧ v ≠ 0 ∧
        (∀ rh ∈ rush_hours, ∀ u, e.train_congestion_cache.lookup
            (st, rh, (resolve_sk_key st hour dow).2.2) = some u → u ≠ 0 →
          |hour - bh| ≤ |hour - rh|) ∧
        get_train_congestion_scale e st hour dow
          = max (1/2) (min 2
              ((max (3/10) (1 - ((|hour - bh| : ℤ) : ℚ) * 12/100) * v
                + (1 - max (3/10) (1 - ((|hour - bh| : ℤ) : ℚ) * 12/100)) * 50) / 50))) ∧
    (e.train_congestion_cache.lookup
        (st, hour, (resolve_sk_key st hour dow).2.2) = none →
      find_nearest_rush_data e.train_congestion_cache st hour
          (resolve_sk_key st hour dow).2.2 = none →
      get_train_congestion_scale e st hour dow = 1) := by
  refine ⟨fun hc => ?_, fun v hv => ?_,
    fun hnone rh0 hmem v0 hl0 hv0 hclose => ?_, fun hnone hfn => ?_⟩
  · simp [get_train_congestion_scale, hc]
  · have hc : e.train_congestion_cache ≠ [] := by
      intro h
      rw [h] at hv
      simp [List.lookup] at hv
    simp [get_train_congestion_scale, resolve_train_congestion, hc, hv]
  · obtain ⟨bh, v, hbhmem, hv, hvne, hmin, hfn⟩ :=
      find_nearest_rush_spec e.train_congestion_cache st hour
        (resolve_sk_key st hour dow).2.2 rh0 v0 hmem hl0 hv0 hclose
    refine ⟨bh, v, hbhmem, hv, hvne, hmin, ?_⟩
    have hc : e.train_congestion_cache ≠ [] := by
      intro h
      rw [h] at hl0
      simp [List.lookup] at hl0
    simp [get_train_congestion_scale, resolve_train_congestion, hc, hnone, hfn]
  · by_cases hc : e.train_congestion_cache = []
    · simp [get_train_congestion_scale, hc]
    · simp [get_train_congestion_scale, resolve_train_congestion, hc, hnone, hfn]

/-- Witness for C8 on the `Etr` cache: hour 13 misses exactly, nearest
rush hour with data is 17 (distance 4), and hour 8 hits exactly. -/
theorem C8_witness :
    (∃ bh v, bh ∈ rush_hours ∧
      Etr.train_congestion_cache.lookup
        (("S"), bh, (resolve_sk_key ("S") 13 none).2.2) = some v ∧ v ≠ 0 ∧
      (∀ rh ∈ rush_hours, ∀ u, Etr.train_congestion_cache.lookup
          (("S"), rh, (resolve_sk_key ("S") 13 none).2.2) = some u → u ≠ 0 →
        |(13 : ℤ) - bh| ≤ |(13 : ℤ) - rh|) ∧
      get_train_congestion_scale Etr ("S") 13 none
        = max (1/2) (min 2
            ((max (3/10) (1 - ((|(13 : ℤ) - bh| : ℤ) : ℚ) * 12/100) * v
              + (1 - max (3/10) (1 - ((|(13 : ℤ) - bh| : ℤ) : ℚ) * 12/100)) * 50) / 50))) ∧
    get_train_congestion_scale Etr ("S") 8 none = max (1/2) (min 2 ((60 : ℚ) / 50)) :=
  ⟨(C8_train_scale_priority Etr ("S") 13 none).2.2.1 rfl 17 (by decide) 80 rfl
      (by norm_num) (by decide),
    (C8_train_scale_priority Etr ("S") 8 none).2.1 60 rfl⟩

end Metropy
